/-
  Verification of the parallel lid-driven-cavity solver
  (sources: src/SolverCG.cpp, src/LidDrivenCavity.cpp).

  Shallow embedding conventions:
  * `double` values are modelled by `ℚ` (all claims under scrutiny involve
    exact equalities, exact zeros, or comparisons that are robust for the
    concrete inputs used, so exact rationals are adequate).
  * A field array `double*` of a process is a total function `ℕ → ℚ`;
    the source's flat layout macro `IDX(I,J) = J*Nx + I` is kept.
  * CBLAS calls (`dnrm2`, `ddot`, `daxpy`, `dcopy`, `std::fill`) act on the
    first `n` entries, exactly as the leading count argument dictates.
  * Each `MPI_Allreduce(x, MPI_SUM)` returns `x + e` where `e` is the sum of
    the other processes' contributions; the `e`'s enter the model as explicit
    environment inputs.  A single-process run is the environment that is
    constantly zero.  `MPI_Cart_shift` neighbours are modelled by four
    booleans (`true` ↔ the neighbour is a real rank, `false` ↔ the rank is
    the `MPI_PROC_NULL` sentinel, i.e. the edge lies on the global boundary).
  * Halo data received from neighbours (`topData`, ...) are environment
    inputs as well.
  * OpenMP pragmas are modelled by the sequential elision: loop nests and
    `omp section` blocks execute in textual order.  All loops in the sources
    whose iterations write disjoint locations and read only the input buffer
    are rendered pointwise; sequences of writes that can target the same
    location (degenerate local shapes `Nx = 1` / `Ny = 1`) are rendered as
    sequential compositions in textual order.
-/
import Mathlib

/-- `IDX(I,J) = J*Nx + I`, the flat memory layout macro of both sources. -/
def IDX (Nx i j : ℕ) : ℕ := j * Nx + i

theorem IDX_mod (Nx i j : ℕ) (h : i < Nx) : IDX Nx i j % Nx = i := by
  unfold IDX
  rw [Nat.add_comm, Nat.add_mul_mod_self_right, Nat.mod_eq_of_lt h]

theorem IDX_div (Nx i j : ℕ) (h : i < Nx) : IDX Nx i j / Nx = j := by
  unfold IDX
  rw [Nat.add_comm, Nat.add_mul_div_right _ _ (by omega : 0 < Nx),
    Nat.div_eq_of_lt h]
  omega

theorem IDX_inj (Nx i i' j j' : ℕ) (h : i < Nx) (h' : i' < Nx) :
    IDX Nx i j = IDX Nx i' j' ↔ i = i' ∧ j = j' := by
  constructor
  · intro he
    have hm : IDX Nx i j % Nx = IDX Nx i' j' % Nx := by rw [he]
    rw [IDX_mod Nx i j h, IDX_mod Nx i' j' h'] at hm
    have hd : IDX Nx i j / Nx = IDX Nx i' j' / Nx := by rw [he]
    rw [IDX_div Nx i j h, IDX_div Nx i' j' h'] at hd
    exact ⟨hm, hd⟩
  · rintro ⟨rfl, rfl⟩
    rfl

/-! ## CBLAS primitives (acting on the first `n` entries) -/

/-- `cblas_ddot(n, f, 1, g, 1)`. -/
def dotN (n : ℕ) (f g : ℕ → ℚ) : ℚ := ∑ i in Finset.range n, f i * g i

/-- `cblas_dnrm2(n, f, 1)` squared (the source always squares the norm
right after computing it, so the model works with the squared value). -/
def nrm2sq (n : ℕ) (f : ℕ → ℚ) : ℚ := ∑ i in Finset.range n, f i * f i

/-- `cblas_daxpy(n, a, x, 1, y, 1)`: `y ← y + a*x` on the first `n` entries. -/
def axpyN (n : ℕ) (a : ℚ) (x y : ℕ → ℚ) : ℕ → ℚ :=
  fun i => if i < n then y i + a * x i else y i

/-- `cblas_dcopy(n, x, 1, y, 1)`: `y ← x` on the first `n` entries. -/
def copyN (n : ℕ) (x y : ℕ → ℚ) : ℕ → ℚ :=
  fun i => if i < n then x i else y i

/-- `std::fill(x, x+n, 0.0)`. -/
def fillZeroN (n : ℕ) (x : ℕ → ℚ) : ℕ → ℚ :=
  fun i => if i < n then 0 else x i

/-! ## SolverCG -/

/-- Per-process construction data of `SolverCG` (`SolverCG::SolverCG`):
local grid extents, grid spacings, and the four `MPI_Cart_shift`
neighbours, recorded as `true` ↔ the neighbour is a real rank
(`false` ↔ `MPI_PROC_NULL`, the global-boundary sentinel). -/
structure CGParams where
  Nx : ℕ
  Ny : ℕ
  dx : ℚ
  dy : ℚ
  hasTop : Bool
  hasBottom : Bool
  hasLeft : Bool
  hasRight : Bool
deriving DecidableEq

/-- `boundaryDomain` member: set when any neighbour is the sentinel. -/
def CGParams.boundaryDomain (P : CGParams) : Bool :=
  !(P.hasTop && P.hasBottom && P.hasLeft && P.hasRight)

/-- Environment of one `ApplyOperator` call plus the `MPI_Allreduce`
contributions of the other processes used during one CG iteration
(each reduction returns local value + external sum). -/
structure CGEnv where
  topData : ℕ → ℚ
  bottomData : ℕ → ℚ
  leftData : ℕ → ℚ
  rightData : ℕ → ℚ
  extEps : ℚ
  extAlphaDen : ℚ
  extAlphaNum : ℚ
  extBetaDen : ℚ
  extBetaNum : ℚ

/-- The buffers manipulated by `SolverCG::Solve`: the right-hand side `b`,
the solution `x`, and the four scratch arrays `r p z t` allocated
(uninitialised) in the constructor. -/
structure CGState where
  b : ℕ → ℚ
  x : ℕ → ℚ
  r : ℕ → ℚ
  p : ℕ → ℚ
  z : ℕ → ℚ
  t : ℕ → ℚ

/-- Step 1 of `SolverCG::ApplyOperator`: the interior sweep
(`1 ≤ i < Nx-1`, `1 ≤ j < Ny-1`).  All writes hit distinct locations and
read only `inp`, so the loop nest is rendered pointwise. -/
def applyInterior (P : CGParams) (inp out : ℕ → ℚ) : ℕ → ℚ :=
  let dx2i : ℚ := 1 / P.dx / P.dx
  let dy2i : ℚ := 1 / P.dy / P.dy
  fun idx =>
    let i := idx % P.Nx
    let j := idx / P.Nx
    if 1 ≤ i ∧ i + 1 < P.Nx ∧ 1 ≤ j ∧ j + 1 < P.Ny then
      (-inp (IDX P.Nx (i - 1) j) + 2 * inp (IDX P.Nx i j)
        - inp (IDX P.Nx (i + 1) j)) * dx2i
      + (-inp (IDX P.Nx i (j - 1)) + 2 * inp (IDX P.Nx i j)
        - inp (IDX P.Nx i (j + 1))) * dy2i
    else out idx

/-- Step 2 of `SolverCG::ApplyOperator`: the local-domain corners.
Branch structure and guard conditions follow the source literally
(including the `in[0]` / `rightData[1]` oddities of the row-vector
branch); guarded writes execute in textual order. -/
def applyCorners (P : CGParams) (E : CGEnv) (inp out : ℕ → ℚ) : ℕ → ℚ :=
  let dx2i : ℚ := 1 / P.dx / P.dx
  let dy2i : ℚ := 1 / P.dy / P.dy
  let Nx := P.Nx
  let Ny := P.Ny
  if Nx = 1 ∧ Ny = 1 ∧ ¬P.boundaryDomain = true then
    Function.update out 0
      ((-E.leftData 0 + 2 * inp 0 - E.rightData 0) * dx2i
        + (-E.bottomData 0 + 2 * inp 0 - E.topData 0) * dy2i)
  else if Nx = 1 ∧ Ny ≠ 1 ∧ ¬(¬P.hasLeft = true ∨ ¬P.hasRight = true) then
    let o1 := if P.hasTop then
        Function.update out (Ny - 1)
          ((-E.leftData (Ny - 1) + 2 * inp (Ny - 1) - E.rightData (Ny - 1)) * dx2i
            + (-inp (Ny - 2) + 2 * inp (Ny - 1) - E.topData 0) * dy2i)
      else out
    if P.hasBottom then
      Function.update o1 0
        ((-E.leftData 0 + 2 * inp 0 - E.rightData 0) * dx2i
          + (-E.bottomData 0 + 2 * inp 0 - inp 1) * dy2i)
    else o1
  else if Nx ≠ 1 ∧ Ny = 1 ∧ ¬(¬P.hasTop = true ∨ ¬P.hasBottom = true) then
    let o1 := if P.hasLeft then
        Function.update out 0
          ((-E.leftData 0 + 2 * inp 0 - inp 1) * dx2i
            + (-E.bottomData 0 + 2 * inp 0 - E.topData 0) * dy2i)
      else out
    if P.hasRight then
      Function.update o1 (Nx - 1)
        ((-inp (Nx - 2) + 2 * inp 0 - E.rightData 1) * dx2i
          + (-E.bottomData (Nx - 1) + 2 * inp 0 - E.topData (Nx - 1)) * dy2i)
    else o1
  else
    let o1 := if ¬(¬P.hasBottom = true ∨ ¬P.hasLeft = true) then
        Function.update out (IDX Nx 0 0)
          ((-E.leftData 0 + 2 * inp (IDX Nx 0 0) - inp (IDX Nx 1 0)) * dx2i
            + (-E.bottomData 0 + 2 * inp (IDX Nx 0 0) - inp (IDX Nx 0 1)) * dy2i)
      else out
    let o2 := if ¬(¬P.hasBottom = true ∨ ¬P.hasRight = true) then
        Function.update o1 (IDX Nx (Nx - 1) 0)
          ((-inp (IDX Nx (Nx - 2) 0) + 2 * inp (IDX Nx (Nx - 1) 0) - E.rightData 0) * dx2i
            + (-E.bottomData (Nx - 1) + 2 * inp (IDX Nx (Nx - 1) 0)
                - inp (IDX Nx (Nx - 1) 1)) * dy2i)
      else o1
    let o3 := if ¬(¬P.hasTop = true ∨ ¬P.hasLeft = true) then
        Function.update o2 (IDX Nx 0 (Ny - 1))
          ((-E.leftData (Ny - 1) + 2 * inp (IDX Nx 0 (Ny - 1)) - inp (IDX Nx 1 (Ny - 1))) * dx2i
            + (-inp (IDX Nx 0 (Ny - 2)) + 2 * inp (IDX Nx 0 (Ny - 1)) - E.topData 0) * dy2i)
      else o2
    if ¬(¬P.hasTop = true ∨ ¬P.hasRight = true) then
      Function.update o3 (IDX Nx (Nx - 1) (Ny - 1))
        ((-inp (IDX Nx (Nx - 2) (Ny - 1)) + 2 * inp (IDX Nx (Nx - 1) (Ny - 1))
            - E.rightData (Ny - 1)) * dx2i
          + (-inp (IDX Nx (Nx - 1) (Ny - 2)) + 2 * inp (IDX Nx (Nx - 1) (Ny - 1))
              - E.topData (Nx - 1)) * dy2i)
    else o3

/-- Step 3 of `SolverCG::ApplyOperator`: the local-domain edges.  The six
guarded loops target pairwise disjoint index sets, so the step is rendered
pointwise with the source's guards. -/
def applyEdges (P : CGParams) (E : CGEnv) (inp out : ℕ → ℚ) : ℕ → ℚ :=
  let dx2i : ℚ := 1 / P.dx / P.dx
  let dy2i : ℚ := 1 / P.dy / P.dy
  let Nx := P.Nx
  let Ny := P.Ny
  fun idx =>
    let i := idx % Nx
    let j := idx / Nx
    if Nx = 1 ∧ 1 < Ny ∧ P.hasLeft = true ∧ P.hasRight = true
        ∧ 1 ≤ j ∧ j + 1 < Ny then
      (-E.leftData j + 2 * inp j - E.rightData j) * dx2i
        + (-inp (j - 1) + 2 * inp j - inp (j + 1)) * dy2i
    else if Nx ≠ 1 ∧ Ny = 1 ∧ P.hasTop = true ∧ P.hasBottom = true
        ∧ j = 0 ∧ 1 ≤ i ∧ i + 1 < Nx then
      (-inp (i - 1) + 2 * inp i - inp (i + 1)) * dx2i
        + (-E.bottomData i + 2 * inp i - E.topData i) * dy2i
    else if Nx ≠ 1 ∧ Ny ≠ 1 ∧ P.hasBottom = true ∧ j = 0 ∧ 1 ≤ i ∧ i + 1 < Nx then
      (-inp (IDX Nx (i - 1) 0) + 2 * inp (IDX Nx i 0) - inp (IDX Nx (i + 1) 0)) * dx2i
        + (-E.bottomData i + 2 * inp (IDX Nx i 0) - inp (IDX Nx i 1)) * dy2i
    else if Nx ≠ 1 ∧ Ny ≠ 1 ∧ P.hasTop = true ∧ j = Ny - 1 ∧ 1 ≤ i ∧ i + 1 < Nx then
      (-inp (IDX Nx (i - 1) (Ny - 1)) + 2 * inp (IDX Nx i (Ny - 1))
          - inp (IDX Nx (i + 1) (Ny - 1))) * dx2i
        + (-inp (IDX Nx i (Ny - 2)) + 2 * inp (IDX Nx i (Ny - 1)) - E.topData i) * dy2i
    else if Nx ≠ 1 ∧ Ny ≠ 1 ∧ P.hasLeft = true ∧ i = 0 ∧ 1 ≤ j ∧ j + 1 < Ny then
      (-E.leftData j + 2 * inp (IDX Nx 0 j) - inp (IDX Nx 1 j)) * dx2i
        + (-inp (IDX Nx 0 (j - 1)) + 2 * inp (IDX Nx 0 j) - inp (IDX Nx 0 (j + 1))) * dy2i
    else if Nx ≠ 1 ∧ Ny ≠ 1 ∧ P.hasRight = true ∧ i = Nx - 1 ∧ 1 ≤ j ∧ j + 1 < Ny then
      (-inp (IDX Nx (Nx - 2) j) + 2 * inp (IDX Nx (Nx - 1) j) - E.rightData j) * dx2i
        + (-inp (IDX Nx (Nx - 1) (j - 1)) + 2 * inp (IDX Nx (Nx - 1) j)
            - inp (IDX Nx (Nx - 1) (j + 1))) * dy2i
    else out idx

/-- `SolverCG::ApplyOperator(in, out)`: interior, then corners, then edges
(the three steps write disjoint locations). Unwritten entries of `out`
keep their previous contents. -/
def applyOperator (P : CGParams) (E : CGEnv) (inp out : ℕ → ℚ) : ℕ → ℚ :=
  applyEdges P E inp (applyCorners P E inp (applyInterior P inp out))

/-- `factor = 2.0*(dx2i + dy2i)` of `SolverCG::Precondition`. -/
def precondFactor (P : CGParams) : ℚ :=
  2 * (1 / P.dx / P.dx + 1 / P.dy / P.dy)

/-- Step 1 of `SolverCG::Precondition`: interior points, `out = in/factor`. -/
def precondInterior (P : CGParams) (inp out : ℕ → ℚ) : ℕ → ℚ :=
  fun idx =>
    let i := idx % P.Nx
    let j := idx / P.Nx
    if 1 ≤ i ∧ i + 1 < P.Nx ∧ 1 ≤ j ∧ j + 1 < P.Ny then
      inp idx / precondFactor P
    else out idx

/-- `omp section` pair for the left column of `SolverCG::Precondition`:
divide when a left neighbour exists, copy when the process sits on the
global left boundary. -/
def precondLeftCol (P : CGParams) (inp out : ℕ → ℚ) : ℕ → ℚ :=
  fun idx =>
    let i := idx % P.Nx
    let j := idx / P.Nx
    if i = 0 ∧ 1 ≤ j ∧ j + 1 < P.Ny then
      (if P.hasLeft then inp idx / precondFactor P else inp idx)
    else out idx

/-- `omp section` pair for the right column of `SolverCG::Precondition`. -/
def precondRightCol (P : CGParams) (inp out : ℕ → ℚ) : ℕ → ℚ :=
  fun idx =>
    let i := idx % P.Nx
    let j := idx / P.Nx
    if i = P.Nx - 1 ∧ 1 ≤ j ∧ j + 1 < P.Ny then
      (if P.hasRight then inp idx / precondFactor P else inp idx)
    else out idx

/-- `omp section` pair for the bottom row of `SolverCG::Precondition`. -/
def precondBottomRow (P : CGParams) (inp out : ℕ → ℚ) : ℕ → ℚ :=
  fun idx =>
    let i := idx % P.Nx
    let j := idx / P.Nx
    if j = 0 ∧ 1 ≤ i ∧ i + 1 < P.Nx then
      (if P.hasBottom then inp idx / precondFactor P else inp idx)
    else out idx

/-- `omp section` pair for the top row of `SolverCG::Precondition`. -/
def precondTopRow (P : CGParams) (inp out : ℕ → ℚ) : ℕ → ℚ :=
  fun idx =>
    let i := idx % P.Nx
    let j := idx / P.Nx
    if j = P.Ny - 1 ∧ 1 ≤ i ∧ i + 1 < P.Nx then
      (if P.hasTop then inp idx / precondFactor P else inp idx)
    else out idx

/-- Step 3 of `SolverCG::Precondition`: the four corner writes, in textual
order (later writes win on degenerate shapes where corners coincide). -/
def precondCorners (P : CGParams) (inp out : ℕ → ℚ) : ℕ → ℚ :=
  let F := precondFactor P
  let Nx := P.Nx
  let Ny := P.Ny
  let o1 := Function.update out 0
    (if ¬P.hasLeft = true ∨ ¬P.hasBottom = true then inp 0 else inp 0 / F)
  let o2 := Function.update o1 (IDX Nx 0 (Ny - 1))
    (if ¬P.hasLeft = true ∨ ¬P.hasTop = true then inp (IDX Nx 0 (Ny - 1))
      else inp (IDX Nx 0 (Ny - 1)) / F)
  let o3 := Function.update o2 (IDX Nx (Nx - 1) 0)
    (if ¬P.hasRight = true ∨ ¬P.hasBottom = true then inp (IDX Nx (Nx - 1) 0)
      else inp (IDX Nx (Nx - 1) 0) / F)
  Function.update o3 (IDX Nx (Nx - 1) (Ny - 1))
    (if ¬P.hasRight = true ∨ ¬P.hasTop = true then inp (IDX Nx (Nx - 1) (Ny - 1))
      else inp (IDX Nx (Nx - 1) (Ny - 1)) / F)

/-- `SolverCG::Precondition(in, out)`: interior, the four edge section
pairs in textual order, then the corners. -/
def precondition (P : CGParams) (inp out : ℕ → ℚ) : ℕ → ℚ :=
  precondCorners P inp
    (precondTopRow P inp
      (precondBottomRow P inp
        (precondRightCol P inp
          (precondLeftCol P inp
            (precondInterior P inp out)))))

/-- `SolverCG::ImposeBC(inout)`: zero every row/column of the local domain
whose neighbour rank is the `MPI_PROC_NULL` sentinel.  All writes store
`0.0`, so the four guarded loops are rendered as one pointwise test. -/
def imposeBC (P : CGParams) (inout : ℕ → ℚ) : ℕ → ℚ :=
  fun idx =>
    let i := idx % P.Nx
    let j := idx / P.Nx
    if (¬P.hasBottom = true ∧ j = 0 ∧ i < P.Nx)
        ∨ (¬P.hasTop = true ∧ j = P.Ny - 1 ∧ i < P.Nx)
        ∨ (¬P.hasLeft = true ∧ i = 0 ∧ j < P.Ny)
        ∨ (¬P.hasRight = true ∧ i = P.Nx - 1 ∧ j < P.Ny) then 0
    else inout idx

/-- `tol = 0.001` of `SolverCG::Solve`. -/
def tol : ℚ := 1 / 1000

/-- Result of `SolverCG::Solve`:
* `earlyExit` — the `‖b‖ < tol²` branch returned after zeroing `x`;
* `converged k` — the CG loop broke at iteration `k` and the root printed
  "Converged in k iterations";
* `failed` — `k == 5000` was reached, the root printed
  "FAILED TO CONVERGE" and the program called `exit(-1)`. -/
inductive CGOutcome where
  | earlyExit : CGOutcome
  | converged : ℕ → CGOutcome
  | failed : CGOutcome
deriving DecidableEq

/-- First half of one CG iteration (source lines 144-168): apply the
operator to `p`, reduce the α numerator/denominator, update `x` and `r`,
and reduce the squared residual norm.  Returns the partially updated
state, the reduced squared residual, and the already-reduced β
denominator (whose local part `r·z` was read before the updates). -/
def cgIterCore (P : CGParams) (E : CGEnv) (st : CGState) : CGState × ℚ × ℚ :=
  let n := P.Nx * P.Ny
  let t1 := applyOperator P E st.p st.t
  let alphaDen := dotN n t1 st.p + E.extAlphaDen
  let alphaNum := dotN n st.r st.z + E.extAlphaNum
  let betaDenG := dotN n st.r st.z + E.extBetaDen
  let alpha := alphaNum / alphaDen
  let x1 := axpyN n alpha st.p st.x
  let r1 := axpyN n (-alpha) t1 st.r
  let S := nrm2sq n r1 + E.extEps
  (⟨st.b, x1, r1, st.p, st.z, t1⟩, S, betaDenG)

/-- Second half of one CG iteration (source lines 174-186), executed only
when the convergence test fails: precondition `r` into `z`, reduce the β
numerator, and assemble the next search direction in `t` and `p`. -/
def cgIterTail (P : CGParams) (E : CGEnv) (st : CGState) (betaDenG : ℚ) : CGState :=
  let n := P.Nx * P.Ny
  let z1 := precondition P st.r st.z
  let betaNum := dotN n st.r z1 + E.extBetaNum
  let t2 := copyN n z1 st.t
  let beta := betaNum / betaDenG
  let t3 := axpyN n beta st.p t2
  let p1 := copyN n t3 st.p
  ⟨st.b, st.x, st.r, p1, z1, t3⟩

/-- The `do { ... } while (k < 5000)` loop of `SolverCG::Solve` followed by
the `k == 5000` failure check.  `k` is the iteration counter after the
`k++` at the top of the body; `fuel` is `5001 - k`, so the recursion is
structural.  The loop breaks at the first iteration whose reduced squared
residual is below `(tol·tol)²`; leaving the loop with `k = 5000` (by break
or by the loop condition) is the fatal non-convergence path. -/
def solveLoop (P : CGParams) (env : ℕ → CGEnv) :
    ℕ → ℕ → CGState → CGOutcome × CGState
  | 0, _, st => (CGOutcome.failed, st)
  | fuel + 1, k, st =>
    let c := cgIterCore P (env k) st
    if c.2.1 < tol ^ 4 then
      (if k = 5000 then CGOutcome.failed else CGOutcome.converged k, c.1)
    else
      let st' := cgIterTail P (env k) c.1 c.2.2
      if k < 5000 then solveLoop P env fuel (k + 1) st'
      else (CGOutcome.failed, st')

/-- The state entering the CG loop of `SolverCG::Solve` (source lines
133-139): `t ← A x`, `r ← b`, `ImposeBC(r)`, `r ← r - t`,
`z ← M⁻¹ r`, `p ← z`.  `env 0` supplies the halos of the initial
`ApplyOperator` call. -/
def solveInit (P : CGParams) (env : ℕ → CGEnv) (st : CGState) : CGState :=
  let n := P.Nx * P.Ny
  let t1 := applyOperator P (env 0) st.x st.t
  let r1 := copyN n st.b st.r
  let r2 := imposeBC P r1
  let r3 := axpyN n (-1) t1 r2
  let z1 := precondition P r3 st.z
  let p1 := copyN n z1 st.p
  ⟨st.b, st.x, r3, p1, z1, t1⟩

/-- `SolverCG::Solve(b, x)`.  The reduced `‖b‖²` is compared (squared)
against `(tol·tol)²`: the source computes `globalEps = sqrt(Σ‖b‖²)` and
tests `globalEps < tol*tol`, which for the non-negative reduced sum is
equivalent to the squared comparison used here. -/
def solve (P : CGParams) (env : ℕ → CGEnv) (st : CGState) : CGOutcome × CGState :=
  let n := P.Nx * P.Ny
  let S0 := nrm2sq n st.b + (env 0).extEps
  if S0 < tol ^ 4 then
    (CGOutcome.earlyExit, ⟨st.b, fillZeroN n st.x, st.r, st.p, st.z, st.t⟩)
  else
    solveLoop P env 5000 1 (solveInit P env st)

/-- Scalar parameters used by `LidDrivenCavity::Advance`, `GetData` and
`WriteSolution`: the local grid extents `Nx × Ny` and the scalars
`dx dy dt nu U`. -/
structure LDCParams where
  Nx : ℕ
  Ny : ℕ
  dx : ℚ
  dy : ℚ
  dt : ℚ
  nu : ℚ
  U : ℚ

/-- Bottom-row statement of the boundary-vorticity loop of
`LidDrivenCavity::Advance` (interior columns `1 ≤ i < Nx-1`). -/
def bvBottomRow (P : LDCParams) (s v : ℕ → ℚ) : ℕ → ℚ :=
  fun idx =>
    let i := idx % P.Nx
    let j := idx / P.Nx
    if j = 0 ∧ 1 ≤ i ∧ i + 1 < P.Nx then
      2 * (1 / P.dy / P.dy) * (s (IDX P.Nx i 0) - s (IDX P.Nx i 1))
    else v idx

/-- Top-row statement of the boundary-vorticity loop (includes the lid
term `-2·dyi·U`). -/
def bvTopRow (P : LDCParams) (s v : ℕ → ℚ) : ℕ → ℚ :=
  fun idx =>
    let i := idx % P.Nx
    let j := idx / P.Nx
    if j = P.Ny - 1 ∧ 1 ≤ i ∧ i + 1 < P.Nx then
      2 * (1 / P.dy / P.dy) * (s (IDX P.Nx i (P.Ny - 1)) - s (IDX P.Nx i (P.Ny - 2)))
        - 2 * (1 / P.dy) * P.U
    else v idx

/-- Left-column statement of the boundary-vorticity loop (interior rows). -/
def bvLeftCol (P : LDCParams) (s v : ℕ → ℚ) : ℕ → ℚ :=
  fun idx =>
    let i := idx % P.Nx
    let j := idx / P.Nx
    if i = 0 ∧ 1 ≤ j ∧ j + 1 < P.Ny then
      2 * (1 / P.dx / P.dx) * (s (IDX P.Nx 0 j) - s (IDX P.Nx 1 j))
    else v idx

/-- Right-column statement of the boundary-vorticity loop. -/
def bvRightCol (P : LDCParams) (s v : ℕ → ℚ) : ℕ → ℚ :=
  fun idx =>
    let i := idx % P.Nx
    let j := idx / P.Nx
    if i = P.Nx - 1 ∧ 1 ≤ j ∧ j + 1 < P.Ny then
      2 * (1 / P.dx / P.dx) * (s (IDX P.Nx (P.Nx - 1) j) - s (IDX P.Nx (P.Nx - 2) j))
    else v idx

/-- The "Boundary node vorticity" step of `LidDrivenCavity::Advance`
(source lines 250-263): the per-`i` loop writes bottom then top, the
per-`j` loop writes left then right; all reads are from `s`, so the four
statements are composed in textual order. -/
def boundaryVorticity (P : LDCParams) (s v : ℕ → ℚ) : ℕ → ℚ :=
  bvRightCol P s (bvLeftCol P s (bvTopRow P s (bvBottomRow P s v)))

/-- The "Compute interior vorticity" step of `LidDrivenCavity::Advance`
(source lines 266-273); reads only `s`, so rendered pointwise. -/
def interiorVorticity (P : LDCParams) (s v : ℕ → ℚ) : ℕ → ℚ :=
  fun idx =>
    let i := idx % P.Nx
    let j := idx / P.Nx
    if 1 ≤ i ∧ i + 1 < P.Nx ∧ 1 ≤ j ∧ j + 1 < P.Ny then
      (1 / P.dx / P.dx) * (2 * s (IDX P.Nx i j) - s (IDX P.Nx (i + 1) j)
          - s (IDX P.Nx (i - 1) j))
        + (1 / P.dy / P.dy) * (2 * s (IDX P.Nx i j) - s (IDX P.Nx i (j + 1))
          - s (IDX P.Nx i (j - 1)))
    else v idx

/-- Right-hand side of the "Time advance vorticity" update of
`LidDrivenCavity::Advance` (source lines 278-284), with the vorticity
reads split into `pre` (centre, east `(i+1,j)`, north `(i,j+1)`) and
`post` (west `(i-1,j)`, south `(i,j-1)`) so that the mixed-read
behaviour of the in-place sweep can be expressed. -/
def advRhsMixed (P : LDCParams) (s pre post : ℕ → ℚ) (i j : ℕ) : ℚ :=
  pre (IDX P.Nx i j) + P.dt *
    ( (s (IDX P.Nx (i + 1) j) - s (IDX P.Nx (i - 1) j)) * (1 / 2) * (1 / P.dx)
        * (pre (IDX P.Nx i (j + 1)) - post (IDX P.Nx i (j - 1))) * (1 / 2) * (1 / P.dy)
      - (s (IDX P.Nx i (j + 1)) - s (IDX P.Nx i (j - 1))) * (1 / 2) * (1 / P.dy)
        * (pre (IDX P.Nx (i + 1) j) - post (IDX P.Nx (i - 1) j)) * (1 / 2) * (1 / P.dx)
      + P.nu * (pre (IDX P.Nx (i + 1) j) - 2 * pre (IDX P.Nx i j)
          + post (IDX P.Nx (i - 1) j)) * (1 / P.dx / P.dx)
      + P.nu * (pre (IDX P.Nx i (j + 1)) - 2 * pre (IDX P.Nx i j)
          + post (IDX P.Nx i (j - 1))) * (1 / P.dy / P.dy) )

/-- The update expression of the in-place time-advance loop: all five
vorticity reads from the current array `v`. -/
def advRhs (P : LDCParams) (s v : ℕ → ℚ) (i j : ℕ) : ℚ :=
  advRhsMixed P s v v i j

/-- Inner loop of the time-advance sweep for column `i`: processes
`j = 1, ..., m` in ascending order, updating the array in place. -/
def sweepJ (P : LDCParams) (s : ℕ → ℚ) (i : ℕ) : ℕ → (ℕ → ℚ) → ℕ → ℚ
  | 0, v => v
  | m + 1, v =>
    let v' := sweepJ P s i m v
    Function.update v' (IDX P.Nx i (m + 1)) (advRhs P s v' i (m + 1))

/-- Outer loop of the time-advance sweep: processes columns
`i = 1, ..., m` in ascending order, each column running the full inner
loop `j = 1, ..., Ny-2`. -/
def sweepI (P : LDCParams) (s : ℕ → ℚ) : ℕ → (ℕ → ℚ) → ℕ → ℚ
  | 0, v => v
  | m + 1, v => sweepJ P s (m + 1) (P.Ny - 2) (sweepI P s m v)

/-- The "Time advance vorticity" step of `LidDrivenCavity::Advance`
(source lines 276-286): an in-place sweep over the interior, `i` outer
ascending, `j` inner ascending, each cell overwritten with `advRhs`
evaluated on the current (partially updated) array. -/
def timeAdvance (P : LDCParams) (s v : ℕ → ℚ) : ℕ → ℚ :=
  sweepI P s (P.Nx - 2) v

/-- The two-buffer variant of the time-advance step: every cell's
right-hand side reads only the pre-step array `v`. -/
def timeAdvanceJacobi (P : LDCParams) (s v : ℕ → ℚ) : ℕ → ℚ :=
  fun idx =>
    let i := idx % P.Nx
    let j := idx / P.Nx
    if 1 ≤ i ∧ i + 1 < P.Nx ∧ 1 ≤ j ∧ j + 1 < P.Ny then
      advRhs P s v i j
    else v idx

/-- The velocity derivation shared by `LidDrivenCavity::GetData` and
`LidDrivenCavity::WriteSolution`: interior one-sided differences of the
streamfunction into the caller-supplied buffers `u0 u1`, then `u0 = U` on
the whole local top row.  Entries not written keep the buffer's previous
contents (`WriteSolution` allocates the buffers zero-initialised;
`GetData` writes into caller-provided buffers without clearing them). -/
def computeVelocities (P : LDCParams) (s u0 u1 : ℕ → ℚ) : (ℕ → ℚ) × (ℕ → ℚ) :=
  let u0i : ℕ → ℚ := fun idx =>
    let i := idx % P.Nx
    let j := idx / P.Nx
    if 1 ≤ i ∧ i + 1 < P.Nx ∧ 1 ≤ j ∧ j + 1 < P.Ny then
      (s (IDX P.Nx i (j + 1)) - s (IDX P.Nx i j)) / P.dy
    else u0 idx
  let u1i : ℕ → ℚ := fun idx =>
    let i := idx % P.Nx
    let j := idx / P.Nx
    if 1 ≤ i ∧ i + 1 < P.Nx ∧ 1 ≤ j ∧ j + 1 < P.Ny then
      -(s (IDX P.Nx (i + 1) j) - s (IDX P.Nx i j)) / P.dx
    else u1 idx
  let u0t : ℕ → ℚ := fun idx =>
    let i := idx % P.Nx
    let j := idx / P.Nx
    if j = P.Ny - 1 ∧ i < P.Nx then P.U else u0i idx
  (u0t, u1i)

/-- The scalar members of `LidDrivenCavity` involved in the domain/grid
setters: local `Lx Ly Nx Ny`, the constructor-reduced global values, the
spacings `dx dy` and `Npts`. -/
structure LDCConfig where
  Lx : ℚ
  Ly : ℚ
  Nx : ℕ
  Ny : ℕ
  globalLx : ℚ
  globalLy : ℚ
  globalNx : ℕ
  globalNy : ℕ
  dx : ℚ
  dy : ℚ
  Npts : ℕ
deriving DecidableEq

/-- `LidDrivenCavity::LidDrivenCavity`: the constructor `MPI_Allreduce`s
the *current* member values of `Nx, Lx` over the row communicator and
`Ny, Ly` over the column communicator into the `global*` members
(`ext*` are the other processes' summed contributions; a single-process
run has them zero). -/
def ldcConstruct (c : LDCConfig) (extNx extNy : ℕ) (extLx extLy : ℚ) : LDCConfig :=
  ⟨c.Lx, c.Ly, c.Nx, c.Ny, c.Lx + extLx, c.Ly + extLy,
    c.Nx + extNx, c.Ny + extNy, c.dx, c.dy, c.Npts⟩

/-- `LidDrivenCavity::UpdateDxDy` (source lines 235-241): recomputes
`dx, dy` from the *global* lengths and grid counts frozen by the
constructor, and `Npts` from the local counts. -/
def updateDxDy (c : LDCConfig) : LDCConfig :=
  ⟨c.Lx, c.Ly, c.Nx, c.Ny, c.globalLx, c.globalLy, c.globalNx, c.globalNy,
    c.globalLx / ((c.globalNx : ℚ) - 1), c.globalLy / ((c.globalNy : ℚ) - 1),
    c.Nx * c.Ny⟩

/-- `LidDrivenCavity::SetDomainSize`. -/
def setDomainSize (c : LDCConfig) (xlen ylen : ℚ) : LDCConfig :=
  updateDxDy ⟨xlen, ylen, c.Nx, c.Ny, c.globalLx, c.globalLy,
    c.globalNx, c.globalNy, c.dx, c.dy, c.Npts⟩

/-- `LidDrivenCavity::SetGridSize`. -/
def setGridSize (c : LDCConfig) (nx ny : ℕ) : LDCConfig :=
  updateDxDy ⟨c.Lx, c.Ly, nx, ny, c.globalLx, c.globalLy,
    c.globalNx, c.globalNy, c.dx, c.dy, c.Npts⟩

/-- `LidDrivenCavity::GetDx`. -/
def getDx (c : LDCConfig) : ℚ := c.dx

/-- `LidDrivenCavity::GetDy`. -/
def getDy (c : LDCConfig) : ℚ := c.dy

/-- Result of `LidDrivenCavity::PrintConfiguration`: either a normal
return, or the CFL abort carrying the messages printed on the calling
process and the `exit(-1)` code. -/
inductive ConfigOutcome where
  | ok : ConfigOutcome
  | abort : List String → ℚ → ℤ → ConfigOutcome
deriving DecidableEq

/-- The CFL check of `LidDrivenCavity::PrintConfiguration` (source lines
216-222): abort with `exit(-1)` iff `nu*dt/dx/dy > 0.25`; the error text
and the maximum admissible time-step `0.25*dx*dy/nu` are printed only on
the root process.  (The configuration block printed before the check is
elided.) -/
def printConfiguration (isRoot : Bool) (nu dt dx dy : ℚ) : ConfigOutcome :=
  if nu * dt / dx / dy > 1 / 4 then
    ConfigOutcome.abort
      (if isRoot then ["ERROR: Time-step restriction not satisfied!",
                       "Maximum time-step is "] else [])
      (1 / 4 * dx * dy / nu) (-1)
  else ConfigOutcome.ok

/-! ## Helper lemmas -/

/-- Evaluate `dotN` when the product of the two arrays is constant on the
summation range. -/
theorem dotN_const (n : ℕ) (f g : ℕ → ℚ) (c : ℚ)
    (h : ∀ i, i < n → f i * g i = c) : dotN n f g = n * c := by
  unfold dotN
  rw [Finset.sum_congr rfl (fun i hi => h i (Finset.mem_range.mp hi))]
  rw [Finset.sum_const, Finset.card_range, nsmul_eq_mul]

/-- Evaluate `nrm2sq` when the squared entries are constant on the range. -/
theorem nrm2sq_const (n : ℕ) (f : ℕ → ℚ) (c : ℚ)
    (h : ∀ i, i < n → f i * f i = c) : nrm2sq n f = n * c := by
  unfold nrm2sq
  rw [Finset.sum_congr rfl (fun i hi => h i (Finset.mem_range.mp hi))]
  rw [Finset.sum_const, Finset.card_range, nsmul_eq_mul]

/-- If the first CG iteration already passes the convergence test, the
loop breaks there and reports convergence in one iteration. -/
theorem solveLoop_first_conv (P : CGParams) (env : ℕ → CGEnv) (st : CGState)
    (h : (cgIterCore P (env 1) st).2.1 < tol ^ 4) :
    solveLoop P env 5000 1 st =
      (CGOutcome.converged 1, (cgIterCore P (env 1) st).1) := by
  rw [show (5000 : ℕ) = 4999 + 1 from rfl, solveLoop]
  simp [h]

/-! ## Claim C7 -/

/-- C7: `PrintConfiguration` aborts with exit code `-1` iff
`ν·dt/(dx·dy) > 0.25`; on abort the root process (and only the root)
emits "ERROR: Time-step restriction not satisfied!" together with the
maximum admissible time-step `0.25·dx·dy/ν`; otherwise it returns
normally. -/
theorem printConfiguration_cfl (isRoot : Bool) (nu dt dx dy : ℚ) :
    (printConfiguration isRoot nu dt dx dy = ConfigOutcome.ok ↔
      ¬(1 / 4 < nu * dt / (dx * dy)))
    ∧ (1 / 4 < nu * dt / (dx * dy) →
        printConfiguration isRoot nu dt dx dy =
          ConfigOutcome.abort
            (if isRoot then ["ERROR: Time-step restriction not satisfied!",
                             "Maximum time-step is "] else [])
            (1 / 4 * dx * dy / nu) (-1)) := by
  have hdd : nu * dt / dx / dy = nu * dt / (dx * dy) := div_div _ _ _
  unfold printConfiguration
  rw [hdd]
  constructor
  · constructor
    · intro hok
      by_contra hc
      rw [if_pos hc] at hok
      exact ConfigOutcome.noConfusion hok
    · intro hc
      rw [if_neg hc]
  · intro hc
    rw [if_pos hc]

/-- Witness for C7: with `ν = dt = dx = dy = 1` the restriction is
violated and the abort branch is taken with maximum time-step `1/4`. -/
theorem printConfiguration_cfl_witness :
    printConfiguration true 1 1 1 1 =
      ConfigOutcome.abort
        ["ERROR: Time-step restriction not satisfied!", "Maximum time-step is "]
        (1 / 4) (-1) := by
  have h := (printConfiguration_cfl true 1 1 1 1).2 (by norm_num)
  simpa using h

/-! ## Claim C8 -/

/-- C8 (failing input): with the class defaults `Lx = Ly = 1`,
`Nx = Ny = 9` recorded by the constructor's reductions (single-process
run), calling `SetDomainSize(2.2, 3.3)` and then `SetGridSize(102, 307)`
leaves `GetDx() = 1/8` and `GetDy() = 1/8` — the values frozen from the
construction-time globals — instead of the claimed
`Lx/(Nx−1) = 2.2/101` and `Ly/(Ny−1) = 3.3/306`:
`UpdateDxDy` reads `globalLx/globalNx`, which the setters never refresh.
The repository's own unit tests (`LidDrivenCavity_SetDomainSize`,
`LidDrivenCavity_SetGridSize` in `src/unittests.cpp`) assert the claimed
behaviour, so this is a bug in the code. -/
theorem ldc_setters_stale_dx :
    getDx (setGridSize (setDomainSize
        (ldcConstruct ⟨1, 1, 9, 9, 0, 0, 0, 0, 0, 0, 81⟩ 0 0 0 0)
        (11 / 5) (33 / 10)) 102 307) = 1 / 8
    ∧ getDy (setGridSize (setDomainSize
        (ldcConstruct ⟨1, 1, 9, 9, 0, 0, 0, 0, 0, 0, 81⟩ 0 0 0 0)
        (11 / 5) (33 / 10)) 102 307) = 1 / 8
    ∧ (1 / 8 : ℚ) ≠ 11 / 5 / 101
    ∧ (1 / 8 : ℚ) ≠ 33 / 10 / 306 := by
  refine ⟨?_, ?_, by norm_num, by norm_num⟩
  · norm_num [getDx, setGridSize, setDomainSize, updateDxDy, ldcConstruct]
  · norm_num [getDy, setGridSize, setDomainSize, updateDxDy, ldcConstruct]

/-! ## Claim C10 -/

theorem solveLoop_preserves_b (P : CGParams) (env : ℕ → CGEnv) :
    ∀ fuel k st, ((solveLoop P env fuel k st).2).b = st.b := by
  intro fuel
  induction fuel with
  | zero => intro k st; rfl
  | succ f ih =>
    intro k st
    rw [solveLoop]
    by_cases hc : (cgIterCore P (env k) st).2.1 < tol ^ 4
    · simp only [hc, if_true]
      rfl
    · simp only [hc, if_false]
      by_cases hk : k < 5000
      · simp only [hk, if_true]
        rw [ih]
        rfl
      · simp only [hk, if_false]
        rfl

/-- C10: `SolverCG::Solve(b, x)` never writes the right-hand-side buffer
`b` (distinct from `x` and the scratch buffers in the model's state):
every entry of `b` after the call — on the early-exit path, after any
number of CG iterations, and even on the non-convergence path — equals
its value on entry. -/
theorem solve_preserves_b (P : CGParams) (env : ℕ → CGEnv) (st : CGState) :
    ((solve P env st).2).b = st.b := by
  unfold solve
  by_cases hc : nrm2sq (P.Nx * P.Ny) st.b + (env 0).extEps < tol ^ 4
  · simp only [hc, if_true]
  · simp only [hc, if_false]
    rw [solveLoop_preserves_b]
    rfl

/-! ## Claim C5 -/

/-- C5 (counterexample): the boundary-vorticity step of
`LidDrivenCavity::Advance` consults no neighbour ranks at all; with
`Nx = Ny = 3`, `dx = dy = U = 1`, `s ≡ 0` and `v ≡ 0`, the top-row entry
`(1, Ny-1)` is overwritten to `-2·dyi·U = -2` even though on a process
with a real top-neighbour rank that local edge is not a global boundary
and the claim requires it to stay unchanged (here `0`). -/
theorem boundaryVorticity_unowned_edge_cx :
    boundaryVorticity ⟨3, 3, 1, 1, 1, 1, 1⟩ (fun _ => 0) (fun _ => 0) (IDX 3 1 2) = -2
    ∧ (-2 : ℚ) ≠ 0 := by
  constructor
  · norm_num [boundaryVorticity, bvRightCol, bvLeftCol, bvTopRow, bvBottomRow, IDX]
  · norm_num

/-- C5 (amended): the boundary-vorticity step overwrites the interior
entries of *all four* local edge rows/columns with the boundary formulas,
regardless of which global boundaries the process owns (the step consults
no neighbour information), and leaves every other entry — the four
corners and the strict interior — unchanged. -/
theorem boundaryVorticity_all_edges (P : LDCParams) (s v : ℕ → ℚ)
    (h2x : 2 ≤ P.Nx) (h2y : 2 ≤ P.Ny) :
    (∀ i, 1 ≤ i → i + 1 < P.Nx →
      boundaryVorticity P s v (IDX P.Nx i 0) =
        2 * (1 / P.dy / P.dy) * (s (IDX P.Nx i 0) - s (IDX P.Nx i 1)) ∧
      boundaryVorticity P s v (IDX P.Nx i (P.Ny - 1)) =
        2 * (1 / P.dy / P.dy) *
            (s (IDX P.Nx i (P.Ny - 1)) - s (IDX P.Nx i (P.Ny - 2)))
          - 2 * (1 / P.dy) * P.U) ∧
    (∀ j, 1 ≤ j → j + 1 < P.Ny →
      boundaryVorticity P s v (IDX P.Nx 0 j) =
        2 * (1 / P.dx / P.dx) * (s (IDX P.Nx 0 j) - s (IDX P.Nx 1 j)) ∧
      boundaryVorticity P s v (IDX P.Nx (P.Nx - 1) j) =
        2 * (1 / P.dx / P.dx) *
          (s (IDX P.Nx (P.Nx - 1) j) - s (IDX P.Nx (P.Nx - 2) j))) ∧
    (∀ i j, i < P.Nx → j < P.Ny →
      ¬((j = 0 ∨ j = P.Ny - 1) ∧ 1 ≤ i ∧ i + 1 < P.Nx) →
      ¬((i = 0 ∨ i = P.Nx - 1) ∧ 1 ≤ j ∧ j + 1 < P.Ny) →
      boundaryVorticity P s v (IDX P.Nx i j) = v (IDX P.Nx i j)) := by
  refine ⟨fun i h1 h2 => ?_, fun j h1 h2 => ?_, fun i j hi hj hrow hcol => ?_⟩
  · have hi : i < P.Nx := by omega
    constructor
    · simp only [boundaryVorticity, bvRightCol, bvLeftCol, bvTopRow, bvBottomRow,
        IDX_mod P.Nx i 0 hi, IDX_div P.Nx i 0 hi]
      split_ifs <;> first | rfl | omega | (simp only [true_and, not_and, not_or, not_lt, not_le] at * <;> omega)
    · simp only [boundaryVorticity, bvRightCol, bvLeftCol, bvTopRow, bvBottomRow,
        IDX_mod P.Nx i (P.Ny - 1) hi, IDX_div P.Nx i (P.Ny - 1) hi]
      split_ifs <;> first | rfl | omega | (simp only [true_and, not_and, not_or, not_lt, not_le] at * <;> omega)
  · have h0 : (0 : ℕ) < P.Nx := by omega
    have hN : P.Nx - 1 < P.Nx := by omega
    constructor
    · simp only [boundaryVorticity, bvRightCol, bvLeftCol, bvTopRow, bvBottomRow,
        IDX_mod P.Nx 0 j h0, IDX_div P.Nx 0 j h0]
      split_ifs <;> first | rfl | omega | (simp only [true_and, not_and, not_or, not_lt, not_le] at * <;> omega)
    · simp only [boundaryVorticity, bvRightCol, bvLeftCol, bvTopRow, bvBottomRow,
        IDX_mod P.Nx (P.Nx - 1) j hN, IDX_div P.Nx (P.Nx - 1) j hN]
      split_ifs <;> first | rfl | omega | (simp only [true_and, not_and, not_or, not_lt, not_le] at * <;> omega)
  · simp only [boundaryVorticity, bvRightCol, bvLeftCol, bvTopRow, bvBottomRow,
      IDX_mod P.Nx i j hi, IDX_div P.Nx i j hi]
    split_ifs <;> first | rfl | omega | (simp only [true_and, not_and, not_or, not_lt, not_le] at * <;> omega)

/-- Witness for C5 (amended): on a `4 × 4` grid with `dx = dy = U = 1`,
`s ≡ 1`, `v ≡ 5`, the bottom-row entry `(1,0)` becomes `0` and the corner
`(0,0)` stays `5`. -/
theorem boundaryVorticity_all_edges_witness :
    boundaryVorticity ⟨4, 4, 1, 1, 1, 1, 1⟩ (fun _ => 1) (fun _ => 5) (IDX 4 1 0) =
      2 * (1 / 1 / 1) * (1 - 1)
    ∧ boundaryVorticity ⟨4, 4, 1, 1, 1, 1, 1⟩ (fun _ => 1) (fun _ => 5) (IDX 4 0 0) = 5 := by
  constructor
  · exact ((boundaryVorticity_all_edges ⟨4, 4, 1, 1, 1, 1, 1⟩ (fun _ => 1) (fun _ => 5)
      (by norm_num) (by norm_num)).1 1 (by norm_num) (by norm_num)).1
  · exact (boundaryVorticity_all_edges ⟨4, 4, 1, 1, 1, 1, 1⟩ (fun _ => 1) (fun _ => 5)
      (by norm_num) (by norm_num)).2.2 0 0 (by norm_num) (by norm_num)
      (by omega) (by omega)

/-! ## Claim C6 -/

theorem IDX_eq_zero (Nx i j : ℕ) (h : 0 < Nx) : IDX Nx i j = 0 ↔ i = 0 ∧ j = 0 := by
  unfold IDX
  constructor
  · intro he
    have : j * Nx = 0 ∧ i = 0 := by omega
    rcases this with ⟨h1, h2⟩
    exact ⟨h2, by rcases Nat.mul_eq_zero.mp h1 with h' | h' <;> omega⟩
  · rintro ⟨rfl, rfl⟩
    simp

set_option maxHeartbeats 2000000 in
theorem precond_eval_interior (P : CGParams) (inp out : ℕ → ℚ) (i j : ℕ)
    (h1 : 1 ≤ i) (h2 : i + 1 < P.Nx) (h3 : 1 ≤ j) (h4 : j + 1 < P.Ny) :
    precondition P inp out (IDX P.Nx i j) = inp (IDX P.Nx i j) / precondFactor P := by
  have hi : i < P.Nx := by omega
  have hNx : 0 < P.Nx := by omega
  simp only [precondition, precondCorners, precondTopRow, precondBottomRow,
    precondRightCol, precondLeftCol, precondInterior, Function.update_apply,
    true_and, and_true,
    IDX_mod P.Nx i j hi, IDX_div P.Nx i j hi,
    IDX_inj P.Nx i (P.Nx - 1) j (P.Ny - 1) hi (by omega),
    IDX_inj P.Nx i (P.Nx - 1) j 0 hi (by omega),
    IDX_inj P.Nx i 0 j (P.Ny - 1) hi (by omega),
    IDX_eq_zero P.Nx i j hNx]
  split_ifs <;> first | rfl | omega

set_option maxHeartbeats 2000000 in
theorem precond_eval_left (P : CGParams) (inp out : ℕ → ℚ) (j : ℕ)
    (h2x : 2 ≤ P.Nx) (h3 : 1 ≤ j) (h4 : j + 1 < P.Ny) :
    precondition P inp out (IDX P.Nx 0 j) =
      (if P.hasLeft then inp (IDX P.Nx 0 j) / precondFactor P else inp (IDX P.Nx 0 j)) := by
  have hi : 0 < P.Nx := by omega
  simp only [precondition, precondCorners, precondTopRow, precondBottomRow,
    precondRightCol, precondLeftCol, precondInterior, Function.update_apply,
    true_and, and_true,
    IDX_mod P.Nx 0 j hi, IDX_div P.Nx 0 j hi,
    IDX_inj P.Nx 0 (P.Nx - 1) j (P.Ny - 1) hi (by omega),
    IDX_inj P.Nx 0 (P.Nx - 1) j 0 hi (by omega),
    IDX_inj P.Nx 0 0 j (P.Ny - 1) hi (by omega),
    IDX_eq_zero P.Nx 0 j hi]
  split_ifs <;> first | rfl | omega

set_option maxHeartbeats 2000000 in
theorem precond_eval_right (P : CGParams) (inp out : ℕ → ℚ) (j : ℕ)
    (h2x : 2 ≤ P.Nx) (h3 : 1 ≤ j) (h4 : j + 1 < P.Ny) :
    precondition P inp out (IDX P.Nx (P.Nx - 1) j) =
      (if P.hasRight then inp (IDX P.Nx (P.Nx - 1) j) / precondFactor P
        else inp (IDX P.Nx (P.Nx - 1) j)) := by
  have hi : P.Nx - 1 < P.Nx := by omega
  simp only [precondition, precondCorners, precondTopRow, precondBottomRow,
    precondRightCol, precondLeftCol, precondInterior, Function.update_apply,
    true_and, and_true,
    IDX_mod P.Nx (P.Nx - 1) j hi, IDX_div P.Nx (P.Nx - 1) j hi,
    IDX_inj P.Nx (P.Nx - 1) (P.Nx - 1) j (P.Ny - 1) hi (by omega),
    IDX_inj P.Nx (P.Nx - 1) (P.Nx - 1) j 0 hi (by omega),
    IDX_inj P.Nx (P.Nx - 1) 0 j (P.Ny - 1) hi (by omega),
    IDX_eq_zero P.Nx (P.Nx - 1) j (by omega)]
  split_ifs <;> first | rfl | omega

set_option maxHeartbeats 2000000 in
theorem precond_eval_bottom (P : CGParams) (inp out : ℕ → ℚ) (i : ℕ)
    (h2y : 2 ≤ P.Ny) (h1 : 1 ≤ i) (h2 : i + 1 < P.Nx) :
    precondition P inp out (IDX P.Nx i 0) =
      (if P.hasBottom then inp (IDX P.Nx i 0) / precondFactor P
        else inp (IDX P.Nx i 0)) := by
  have hi : i < P.Nx := by omega
  simp only [precondition, precondCorners, precondTopRow, precondBottomRow,
    precondRightCol, precondLeftCol, precondInterior, Function.update_apply,
    true_and, and_true,
    IDX_mod P.Nx i 0 hi, IDX_div P.Nx i 0 hi,
    IDX_inj P.Nx i (P.Nx - 1) 0 (P.Ny - 1) hi (by omega),
    IDX_inj P.Nx i (P.Nx - 1) 0 0 hi (by omega),
    IDX_inj P.Nx i 0 0 (P.Ny - 1) hi (by omega),
    IDX_eq_zero P.Nx i 0 (by omega)]
  split_ifs <;> first | rfl | omega

set_option maxHeartbeats 2000000 in
theorem precond_eval_top (P : CGParams) (inp out : ℕ → ℚ) (i : ℕ)
    (h2y : 2 ≤ P.Ny) (h1 : 1 ≤ i) (h2 : i + 1 < P.Nx) :
    precondition P inp out (IDX P.Nx i (P.Ny - 1)) =
      (if P.hasTop then inp (IDX P.Nx i (P.Ny - 1)) / precondFactor P
        else inp (IDX P.Nx i (P.Ny - 1))) := by
  have hi : i < P.Nx := by omega
  simp only [precondition, precondCorners, precondTopRow, precondBottomRow,
    precondRightCol, precondLeftCol, precondInterior, Function.update_apply,
    true_and, and_true,
    IDX_mod P.Nx i (P.Ny - 1) hi, IDX_div P.Nx i (P.Ny - 1) hi,
    IDX_inj P.Nx i (P.Nx - 1) (P.Ny - 1) (P.Ny - 1) hi (by omega),
    IDX_inj P.Nx i (P.Nx - 1) (P.Ny - 1) 0 hi (by omega),
    IDX_inj P.Nx i 0 (P.Ny - 1) (P.Ny - 1) hi (by omega),
    IDX_eq_zero P.Nx i (P.Ny - 1) (by omega)]
  split_ifs <;> first | rfl | omega

set_option maxHeartbeats 2000000 in
theorem precond_eval_c00 (P : CGParams) (inp out : ℕ → ℚ)
    (h2x : 2 ≤ P.Nx) (h2y : 2 ≤ P.Ny) :
    precondition P inp out (IDX P.Nx 0 0) =
      (if ¬P.hasLeft = true ∨ ¬P.hasBottom = true then inp (IDX P.Nx 0 0)
        else inp (IDX P.Nx 0 0) / precondFactor P) := by
  have hi : 0 < P.Nx := by omega
  have h00 : IDX P.Nx 0 0 = 0 := by simp [IDX]
  simp only [precondition, precondCorners, precondTopRow, precondBottomRow,
    precondRightCol, precondLeftCol, precondInterior, Function.update_apply,
    true_and, and_true,
    IDX_mod P.Nx 0 0 hi, IDX_div P.Nx 0 0 hi,
    IDX_inj P.Nx 0 (P.Nx - 1) 0 (P.Ny - 1) hi (by omega),
    IDX_inj P.Nx 0 (P.Nx - 1) 0 0 hi (by omega),
    IDX_inj P.Nx 0 0 0 (P.Ny - 1) hi (by omega),
    IDX_eq_zero P.Nx 0 0 hi]
  split_ifs <;> first | rfl | omega | (rw [h00])

set_option maxHeartbeats 2000000 in
theorem precond_eval_cN0 (P : CGParams) (inp out : ℕ → ℚ)
    (h2x : 2 ≤ P.Nx) (h2y : 2 ≤ P.Ny) :
    precondition P inp out (IDX P.Nx (P.Nx - 1) 0) =
      (if ¬P.hasRight = true ∨ ¬P.hasBottom = true then inp (IDX P.Nx (P.Nx - 1) 0)
        else inp (IDX P.Nx (P.Nx - 1) 0) / precondFactor P) := by
  have hi : P.Nx - 1 < P.Nx := by omega
  simp only [precondition, precondCorners, precondTopRow, precondBottomRow,
    precondRightCol, precondLeftCol, precondInterior, Function.update_apply,
    true_and, and_true,
    IDX_mod P.Nx (P.Nx - 1) 0 hi, IDX_div P.Nx (P.Nx - 1) 0 hi,
    IDX_inj P.Nx (P.Nx - 1) (P.Nx - 1) 0 (P.Ny - 1) hi (by omega),
    IDX_inj P.Nx (P.Nx - 1) (P.Nx - 1) 0 0 hi (by omega),
    IDX_inj P.Nx (P.Nx - 1) 0 0 (P.Ny - 1) hi (by omega),
    IDX_eq_zero P.Nx (P.Nx - 1) 0 (by omega)]
  split_ifs <;> first | rfl | omega

set_option maxHeartbeats 2000000 in
theorem precond_eval_c0N (P : CGParams) (inp out : ℕ → ℚ)
    (h2x : 2 ≤ P.Nx) (h2y : 2 ≤ P.Ny) :
    precondition P inp out (IDX P.Nx 0 (P.Ny - 1)) =
      (if ¬P.hasLeft = true ∨ ¬P.hasTop = true then inp (IDX P.Nx 0 (P.Ny - 1))
        else inp (IDX P.Nx 0 (P.Ny - 1)) / precondFactor P) := by
  have hi : 0 < P.Nx := by omega
  simp only [precondition, precondCorners, precondTopRow, precondBottomRow,
    precondRightCol, precondLeftCol, precondInterior, Function.update_apply,
    true_and, and_true,
    IDX_mod P.Nx 0 (P.Ny - 1) hi, IDX_div P.Nx 0 (P.Ny - 1) hi,
    IDX_inj P.Nx 0 (P.Nx - 1) (P.Ny - 1) (P.Ny - 1) hi (by omega),
    IDX_inj P.Nx 0 (P.Nx - 1) (P.Ny - 1) 0 hi (by omega),
    IDX_inj P.Nx 0 0 (P.Ny - 1) (P.Ny - 1) hi (by omega),
    IDX_eq_zero P.Nx 0 (P.Ny - 1) hi]
  split_ifs <;> first | rfl | omega

set_option maxHeartbeats 2000000 in
theorem precond_eval_cNN (P : CGParams) (inp out : ℕ → ℚ)
    (h2x : 2 ≤ P.Nx) (h2y : 2 ≤ P.Ny) :
    precondition P inp out (IDX P.Nx (P.Nx - 1) (P.Ny - 1)) =
      (if ¬P.hasRight = true ∨ ¬P.hasTop = true then inp (IDX P.Nx (P.Nx - 1) (P.Ny - 1))
        else inp (IDX P.Nx (P.Nx - 1) (P.Ny - 1)) / precondFactor P) := by
  have hi : P.Nx - 1 < P.Nx := by omega
  simp only [precondition, precondCorners, precondTopRow, precondBottomRow,
    precondRightCol, precondLeftCol, precondInterior, Function.update_apply,
    true_and, and_true,
    IDX_mod P.Nx (P.Nx - 1) (P.Ny - 1) hi, IDX_div P.Nx (P.Nx - 1) (P.Ny - 1) hi,
    IDX_inj P.Nx (P.Nx - 1) (P.Nx - 1) (P.Ny - 1) (P.Ny - 1) hi (by omega),
    IDX_inj P.Nx (P.Nx - 1) (P.Nx - 1) (P.Ny - 1) 0 hi (by omega),
    IDX_inj P.Nx (P.Nx - 1) 0 (P.Ny - 1) (P.Ny - 1) hi (by omega),
    IDX_eq_zero P.Nx (P.Nx - 1) (P.Ny - 1) (by omega)]
  split_ifs <;> first | rfl | omega

/-- A local grid point `(i,j)` lies on the *global* domain boundary iff it
sits on a local edge whose neighbour rank is the `MPI_PROC_NULL`
sentinel. -/
def isGlobalBoundary (P : CGParams) (i j : ℕ) : Prop :=
  (P.hasLeft = false ∧ i = 0) ∨ (P.hasRight = false ∧ i = P.Nx - 1)
    ∨ (P.hasBottom = false ∧ j = 0) ∨ (P.hasTop = false ∧ j = P.Ny - 1)

instance (P : CGParams) (i j : ℕ) : Decidable (isGlobalBoundary P i j) := by
  unfold isGlobalBoundary
  infer_instance

/-- Pointwise evaluation of `SolverCG::Precondition` on non-degenerate
local shapes: division by `F` strictly inside the global domain, plain
copy on the global boundary. -/
theorem precondition_eval (P : CGParams) (inp out : ℕ → ℚ)
    (h2x : 2 ≤ P.Nx) (h2y : 2 ≤ P.Ny) (i j : ℕ) (hi : i < P.Nx) (hj : j < P.Ny) :
    precondition P inp out (IDX P.Nx i j) =
      (if isGlobalBoundary P i j then inp (IDX P.Nx i j)
        else inp (IDX P.Nx i j) / precondFactor P) := by
  by_cases hi0 : i = 0
  · subst hi0
    by_cases hj0 : j = 0
    · subst hj0
      rw [precond_eval_c00 P inp out h2x h2y]
      cases hL : P.hasLeft <;> cases hB : P.hasBottom <;>
        simp [isGlobalBoundary, hL, hB,
          show (0 = P.Nx - 1) ↔ False from iff_false_intro (by omega),
          show (0 = P.Ny - 1) ↔ False from iff_false_intro (by omega)]
    · by_cases hjN : j = P.Ny - 1
      · subst hjN
        rw [precond_eval_c0N P inp out h2x h2y]
        cases hL : P.hasLeft <;> cases hT : P.hasTop <;>
          simp [isGlobalBoundary, hL, hT,
            show (0 = P.Nx - 1) ↔ False from iff_false_intro (by omega),
            show (P.Ny - 1 = 0) ↔ False from iff_false_intro (by omega)]
      · rw [precond_eval_left P inp out j h2x (by omega) (by omega)]
        cases hL : P.hasLeft <;>
          simp [isGlobalBoundary, hL,
            show (0 = P.Nx - 1) ↔ False from iff_false_intro (by omega),
            show (j = 0) ↔ False from iff_false_intro (by omega),
            show (j = P.Ny - 1) ↔ False from iff_false_intro (by omega)]
  · by_cases hiN : i = P.Nx - 1
    · subst hiN
      by_cases hj0 : j = 0
      · subst hj0
        rw [precond_eval_cN0 P inp out h2x h2y]
        cases hR : P.hasRight <;> cases hB : P.hasBottom <;>
          simp [isGlobalBoundary, hR, hB,
            show (P.Nx - 1 = 0) ↔ False from iff_false_intro (by omega),
            show (0 = P.Ny - 1) ↔ False from iff_false_intro (by omega)]
      · by_cases hjN : j = P.Ny - 1
        · subst hjN
          rw [precond_eval_cNN P inp out h2x h2y]
          cases hR : P.hasRight <;> cases hT : P.hasTop <;>
            simp [isGlobalBoundary, hR, hT,
              show (P.Nx - 1 = 0) ↔ False from iff_false_intro (by omega),
              show (P.Ny - 1 = 0) ↔ False from iff_false_intro (by omega)]
        · rw [precond_eval_right P inp out j h2x (by omega) (by omega)]
          cases hR : P.hasRight <;>
            simp [isGlobalBoundary, hR,
              show (P.Nx - 1 = 0) ↔ False from iff_false_intro (by omega),
              show (j = 0) ↔ False from iff_false_intro (by omega),
              show (j = P.Ny - 1) ↔ False from iff_false_intro (by omega)]
    · by_cases hj0 : j = 0
      · subst hj0
        rw [precond_eval_bottom P inp out i h2y (by omega) (by omega)]
        cases hB : P.hasBottom <;>
          simp [isGlobalBoundary, hB,
            show (i = 0) ↔ False from iff_false_intro (by omega),
            show (i = P.Nx - 1) ↔ False from iff_false_intro (by omega),
            show (0 = P.Ny - 1) ↔ False from iff_false_intro (by omega)]
      · by_cases hjN : j = P.Ny - 1
        · subst hjN
          rw [precond_eval_top P inp out i h2y (by omega) (by omega)]
          cases hT : P.hasTop <;>
            simp [isGlobalBoundary, hT,
              show (i = 0) ↔ False from iff_false_intro (by omega),
              show (i = P.Nx - 1) ↔ False from iff_false_intro (by omega),
              show (P.Ny - 1 = 0) ↔ False from iff_false_intro (by omega)]
        · rw [precond_eval_interior P inp out i j (by omega) (by omega) (by omega) (by omega)]
          rw [if_neg]
          rintro (⟨-, h⟩ | ⟨-, h⟩ | ⟨-, h⟩ | ⟨-, h⟩) <;> omega

/-- C6 (amended): for non-degenerate local shapes (`nx ≥ 2` and
`ny ≥ 2`), `SolverCG::Precondition` writes `out = in / F` with
`F = 2·(dx⁻² + dy⁻²)` at every local point strictly interior to the
global domain and `out = in` (identity) at every local point on the
global boundary; in particular each corner is copied iff either adjacent
edge coincides with the global boundary.  (For `nx = 1` or `ny = 1` the
claim fails, see the counterexample: coincident `omp section` writes make
the textually later section win.) -/
theorem precondition_global_boundary (P : CGParams) (inp out : ℕ → ℚ)
    (h2x : 2 ≤ P.Nx) (h2y : 2 ≤ P.Ny) (i j : ℕ) (hi : i < P.Nx) (hj : j < P.Ny) :
    precondition P inp out (IDX P.Nx i j) =
      (if isGlobalBoundary P i j then inp (IDX P.Nx i j)
        else inp (IDX P.Nx i j) / precondFactor P) :=
  precondition_eval P inp out h2x h2y i j hi hj

attribute [local semireducible] Rat.add Rat.mul Rat.inv Rat.sub in
/-- C6 (counterexample): degenerate local shape `nx = 1` (`Ny = 3`,
`dx = dy = 1`) on the global left boundary (`leftRank` is the sentinel)
with a real right neighbour: the point `(0,1)` lies on the global
boundary, so the claim requires `out = in` there, but the right-column
section (executed after the left-column one) divides it by
`F = 4`: with `in ≡ 1` the code produces `1/4 ≠ 1`. -/
theorem precondition_degenerate_cx :
    precondition ⟨1, 3, 1, 1, true, true, false, true⟩ (fun _ => 1) (fun _ => 0) (IDX 1 0 1)
      = 1 / 4
    ∧ isGlobalBoundary ⟨1, 3, 1, 1, true, true, false, true⟩ 0 1
    ∧ (1 / 4 : ℚ) ≠ 1 := by
  refine ⟨by decide, by decide, by norm_num⟩

/-- Witness for C6 (amended): `3 × 3` single-process grid,
`dx = dy = 1`, `in ≡ 4`; the strictly interior point `(1,1)` is divided
by `F = 4`. -/
theorem precondition_global_boundary_witness :
    precondition ⟨3, 3, 1, 1, false, false, false, false⟩ (fun _ => 4) (fun _ => 0) (IDX 3 1 1)
      = 1 := by
  have h := precondition_global_boundary ⟨3, 3, 1, 1, false, false, false, false⟩
    (fun _ => 4) (fun _ => 0) (by norm_num) (by norm_num) 1 1 (by norm_num) (by norm_num)
  rw [h]
  norm_num [isGlobalBoundary, precondFactor]

/-! ## Claim C9 -/

/-- C9 (counterexample): `LidDrivenCavity::GetData` does not clear the
caller-provided velocity buffers: on a `3 × 3` grid with `s ≡ 0` and a
caller `u0` buffer holding `7`, the non-top boundary point `(0,0)` of the
returned x-velocity still holds `7`, not the claimed exact `0`. -/
theorem computeVelocities_stale_buffer_cx :
    (computeVelocities ⟨3, 3, 1, 1, 1, 1, 1⟩ (fun _ => 0) (fun _ => 7) (fun _ => 0)).1
      (IDX 3 0 0) = 7
    ∧ (7 : ℚ) ≠ 0 := by
  constructor
  · norm_num [computeVelocities, IDX]
  · norm_num

/-- C9 (amended): the velocity derivation shared by `GetData` and
`WriteSolution` satisfies, on the local grid: at strictly interior
points, `u = (s[i,j+1]−s[i,j])/dy` and `w = −(s[i+1,j]−s[i,j])/dx`; on
the whole local top row, `u = U`; every other entry of either velocity
buffer keeps the buffer's previous contents — exactly `0` for
`WriteSolution`, which allocates the buffers zero-initialised, and the
caller's stale values for `GetData`. -/
theorem computeVelocities_pointwise (P : LDCParams) (s u0 u1 : ℕ → ℚ)
    (i j : ℕ) (hi : i < P.Nx) (hj : j < P.Ny) :
    ((computeVelocities P s u0 u1).1 (IDX P.Nx i j) =
      (if j = P.Ny - 1 then P.U
        else if 1 ≤ i ∧ i + 1 < P.Nx ∧ 1 ≤ j ∧ j + 1 < P.Ny then
          (s (IDX P.Nx i (j + 1)) - s (IDX P.Nx i j)) / P.dy
        else u0 (IDX P.Nx i j)))
    ∧ ((computeVelocities P s u0 u1).2 (IDX P.Nx i j) =
      (if 1 ≤ i ∧ i + 1 < P.Nx ∧ 1 ≤ j ∧ j + 1 < P.Ny then
        -(s (IDX P.Nx (i + 1) j) - s (IDX P.Nx i j)) / P.dx
      else u1 (IDX P.Nx i j))) := by
  constructor
  · simp only [computeVelocities, IDX_mod P.Nx i j hi, IDX_div P.Nx i j hi]
    split_ifs <;> first | rfl | omega
  · simp only [computeVelocities, IDX_mod P.Nx i j hi, IDX_div P.Nx i j hi]

/-- Witness for C9 (amended): on a `3 × 3` grid with `dx = dy = 1`,
`U = 1`, `s = id` and zero-initialised buffers (the `WriteSolution`
situation), the top-row point `(0,2)` carries `u = U = 1`, the interior
point `(1,1)` carries `u = s[1,2] − s[1,1] = 3`, and the bottom boundary
point `(1,0)` carries `u = 0`. -/
theorem computeVelocities_pointwise_witness :
    (computeVelocities ⟨3, 3, 1, 1, 1, 1, 1⟩ (fun k => (k : ℚ)) (fun _ => 0) (fun _ => 0)).1
      (IDX 3 0 2) = 1
    ∧ (computeVelocities ⟨3, 3, 1, 1, 1, 1, 1⟩ (fun k => (k : ℚ)) (fun _ => 0) (fun _ => 0)).1
      (IDX 3 1 1) = 3
    ∧ (computeVelocities ⟨3, 3, 1, 1, 1, 1, 1⟩ (fun k => (k : ℚ)) (fun _ => 0) (fun _ => 0)).1
      (IDX 3 1 0) = 0 := by
  refine ⟨?_, ?_, ?_⟩
  · have h := (computeVelocities_pointwise ⟨3, 3, 1, 1, 1, 1, 1⟩ (fun k => (k : ℚ))
      (fun _ => 0) (fun _ => 0) 0 2 (by norm_num) (by norm_num)).1
    rw [h]
    norm_num
  · have h := (computeVelocities_pointwise ⟨3, 3, 1, 1, 1, 1, 1⟩ (fun k => (k : ℚ))
      (fun _ => 0) (fun _ => 0) 1 1 (by norm_num) (by norm_num)).1
    rw [h]
    norm_num [IDX]
  · have h := (computeVelocities_pointwise ⟨3, 3, 1, 1, 1, 1, 1⟩ (fun k => (k : ℚ))
      (fun _ => 0) (fun _ => 0) 1 0 (by norm_num) (by norm_num)).1
    rw [h]
    norm_num

/-! ## Claim C4 -/

theorem IDX_right_cancel (Nx i j j' : ℕ) (h : 0 < Nx) :
    IDX Nx i j = IDX Nx i j' ↔ j = j' := by
  unfold IDX
  constructor
  · intro he
    have h2 : j * Nx = j' * Nx := by omega
    exact Nat.eq_of_mul_eq_mul_right h h2
  · rintro rfl
    rfl

/-- Entries outside the processed cells `(i, 1..m)` are untouched by the
inner sweep. -/
theorem sweepJ_frame (P : LDCParams) (s : ℕ → ℚ) (i : ℕ) :
    ∀ m (v : ℕ → ℚ) idx, (∀ j, 1 ≤ j → j ≤ m → idx ≠ IDX P.Nx i j) →
      sweepJ P s i m v idx = v idx := by
  intro m
  induction m with
  | zero => intro v idx _; rfl
  | succ m ih =>
    intro v idx h
    show Function.update (sweepJ P s i m v) (IDX P.Nx i (m + 1)) _ idx = v idx
    rw [Function.update_noteq (h (m + 1) (by omega) (by omega))]
    exact ih v idx (fun j h1 h2 => h j h1 (by omega))

/-- The value written at cell `(i,j)` by the inner sweep is the update
expression evaluated on the state just before that cell. -/
theorem sweepJ_value (P : LDCParams) (s : ℕ → ℚ) (i : ℕ) :
    ∀ m (v : ℕ → ℚ) j, 1 ≤ j → j ≤ m → 0 < P.Nx →
      sweepJ P s i m v (IDX P.Nx i j) =
        advRhs P s (sweepJ P s i (j - 1) v) i j := by
  intro m
  induction m with
  | zero => intro v j h1 h2 _; omega
  | succ m ih =>
    intro v j h1 h2 hNx
    by_cases hj : j = m + 1
    · subst hj
      show Function.update (sweepJ P s i m v) (IDX P.Nx i (m + 1))
        (advRhs P s (sweepJ P s i m v) i (m + 1)) (IDX P.Nx i (m + 1)) = _
      rw [Function.update_same]
      norm_num
    · show Function.update (sweepJ P s i m v) (IDX P.Nx i (m + 1)) _ (IDX P.Nx i j) = _
      rw [Function.update_noteq (by rw [Ne, IDX_right_cancel P.Nx i j (m + 1) hNx]; omega)]
      exact ih v j h1 (by omega) hNx

/-- Entries outside the processed rows `1..m` are untouched by the outer
sweep. -/
theorem sweepI_frame (P : LDCParams) (s : ℕ → ℚ) :
    ∀ m (v : ℕ → ℚ) idx,
      (∀ i j, 1 ≤ i → i ≤ m → 1 ≤ j → j ≤ P.Ny - 2 → idx ≠ IDX P.Nx i j) →
      sweepI P s m v idx = v idx := by
  intro m
  induction m with
  | zero => intro v idx _; rfl
  | succ m ih =>
    intro v idx h
    show sweepJ P s (m + 1) (P.Ny - 2) (sweepI P s m v) idx = v idx
    rw [sweepJ_frame P s (m + 1) (P.Ny - 2) (sweepI P s m v) idx
      (fun j h1 h2 => h (m + 1) j (by omega) (by omega) h1 h2)]
    exact ih v idx (fun i j hi1 hi2 hj1 hj2 => h i j hi1 (by omega) hj1 hj2)

/-- A cell of column `i ≤ m` holds, after the outer sweep up to `m`, the
value produced when column `i` was processed (later columns never touch
it). -/
theorem sweepI_value (P : LDCParams) (s : ℕ → ℚ) :
    ∀ m (v : ℕ → ℚ) i j, 1 ≤ i → i ≤ m → m < P.Nx → 1 ≤ j → j ≤ P.Ny - 2 →
      sweepI P s m v (IDX P.Nx i j) =
        sweepJ P s i (P.Ny - 2) (sweepI P s (i - 1) v) (IDX P.Nx i j) := by
  intro m
  induction m with
  | zero => intro v i j h1 h2 _ _ _; omega
  | succ m ih =>
    intro v i j h1 h2 hmN h3 h4
    by_cases hi : i = m + 1
    · subst hi
      rfl
    · show sweepJ P s (m + 1) (P.Ny - 2) (sweepI P s m v) (IDX P.Nx i j) = _
      rw [sweepJ_frame P s (m + 1) (P.Ny - 2) (sweepI P s m v) (IDX P.Nx i j)
        (fun j' hj1 hj2 => by
          rw [Ne, IDX_inj P.Nx i (m + 1) j j' (by omega) (by omega)]
          omega)]
      exact ih v i j h1 (by omega) (by omega) h3 h4

/-- The update expression depends only on the five vorticity reads. -/
theorem advRhsMixed_congr (P : LDCParams) (s pre pre' post post' : ℕ → ℚ) (i j : ℕ)
    (hc : pre (IDX P.Nx i j) = pre' (IDX P.Nx i j))
    (he : pre (IDX P.Nx (i + 1) j) = pre' (IDX P.Nx (i + 1) j))
    (hn : pre (IDX P.Nx i (j + 1)) = pre' (IDX P.Nx i (j + 1)))
    (hw : post (IDX P.Nx (i - 1) j) = post' (IDX P.Nx (i - 1) j))
    (hs : post (IDX P.Nx i (j - 1)) = post' (IDX P.Nx i (j - 1))) :
    advRhsMixed P s pre post i j = advRhsMixed P s pre' post' i j := by
  unfold advRhsMixed
  rw [hc, he, hn, hw, hs]

/-- C4 (amended): the in-place time-advance loop is *not* equivalent to a
two-buffer update; it performs a lexicographic Gauss–Seidel-style sweep
(`i` outer ascending, `j` inner ascending): every interior cell `(i,j)`
receives the update expression evaluated with the *already-updated*
values at `(i-1,j)` and `(i,j-1)` and the *pre-step* values at `(i,j)`,
`(i+1,j)` and `(i,j+1)`; all non-interior entries are unchanged. -/
theorem timeAdvance_gauss_seidel (P : LDCParams) (s v : ℕ → ℚ) :
    (∀ i j, 1 ≤ i → i + 1 < P.Nx → 1 ≤ j → j + 1 < P.Ny →
      timeAdvance P s v (IDX P.Nx i j) =
        advRhsMixed P s v (timeAdvance P s v) i j) ∧
    (∀ i j, i < P.Nx → j < P.Ny →
      ¬(1 ≤ i ∧ i + 1 < P.Nx ∧ 1 ≤ j ∧ j + 1 < P.Ny) →
      timeAdvance P s v (IDX P.Nx i j) = v (IDX P.Nx i j)) := by
  constructor
  · intro i j h1 h2 h3 h4
    have hNx : 0 < P.Nx := by omega
    have hiN : i < P.Nx := by omega
    have hA : timeAdvance P s v (IDX P.Nx i j) =
        sweepJ P s i (P.Ny - 2) (sweepI P s (i - 1) v) (IDX P.Nx i j) :=
      sweepI_value P s (P.Nx - 2) v i j h1 (by omega) (by omega) h3 (by omega)
    have hB : sweepJ P s i (P.Ny - 2) (sweepI P s (i - 1) v) (IDX P.Nx i j) =
        advRhs P s (sweepJ P s i (j - 1) (sweepI P s (i - 1) v)) i j :=
      sweepJ_value P s i (P.Ny - 2) (sweepI P s (i - 1) v) j h3 (by omega) hNx
    have ha : sweepJ P s i (j - 1) (sweepI P s (i - 1) v) (IDX P.Nx i j) =
        v (IDX P.Nx i j) := by
      rw [sweepJ_frame P s i (j - 1) _ _
        (fun j' hj1 hj2 => by rw [Ne, IDX_right_cancel P.Nx i j j' hNx]; omega)]
      exact sweepI_frame P s (i - 1) v _
        (fun i' j' hi1 hi2 hj1 hj2 => by
          rw [Ne, IDX_inj P.Nx i i' j j' hiN (by omega)]; omega)
    have hb : sweepJ P s i (j - 1) (sweepI P s (i - 1) v) (IDX P.Nx (i + 1) j) =
        v (IDX P.Nx (i + 1) j) := by
      rw [sweepJ_frame P s i (j - 1) _ _
        (fun j' hj1 hj2 => by rw [Ne, IDX_inj P.Nx (i + 1) i j j' (by omega) hiN]; omega)]
      exact sweepI_frame P s (i - 1) v _
        (fun i' j' hi1 hi2 hj1 hj2 => by
          rw [Ne, IDX_inj P.Nx (i + 1) i' j j' (by omega) (by omega)]; omega)
    have hc : sweepJ P s i (j - 1) (sweepI P s (i - 1) v) (IDX P.Nx i (j + 1)) =
        v (IDX P.Nx i (j + 1)) := by
      rw [sweepJ_frame P s i (j - 1) _ _
        (fun j' hj1 hj2 => by rw [Ne, IDX_right_cancel P.Nx i (j + 1) j' hNx]; omega)]
      exact sweepI_frame P s (i - 1) v _
        (fun i' j' hi1 hi2 hj1 hj2 => by
          rw [Ne, IDX_inj P.Nx i i' (j + 1) j' hiN (by omega)]; omega)
    have hd : sweepJ P s i (j - 1) (sweepI P s (i - 1) v) (IDX P.Nx (i - 1) j) =
        timeAdvance P s v (IDX P.Nx (i - 1) j) := by
      unfold timeAdvance
      by_cases hi1 : i = 1
      · subst hi1
        rw [sweepJ_frame P s 1 (j - 1) _ _
          (fun j' hj1 hj2 => by rw [Ne, IDX_inj P.Nx 0 1 j j' (by omega) (by omega)]; omega)]
        rw [sweepI_frame P s 0 v _ (fun i' j' hi1 hi2 _ _ => by omega)]
        rw [sweepI_frame P s (P.Nx - 2) v _
          (fun i' j' hi1 hi2 hj1 hj2 => by
            rw [Ne, IDX_inj P.Nx 0 i' j j' (by omega) (by omega)]; omega)]
      · have him1 : i - 1 < P.Nx := by omega
        rw [sweepJ_frame P s i (j - 1) _ _
          (fun j' hj1 hj2 => by rw [Ne, IDX_inj P.Nx (i - 1) i j j' him1 hiN]; omega)]
        rw [sweepI_value P s (i - 1) v (i - 1) j (by omega) le_rfl (by omega) h3 (by omega)]
        rw [sweepI_value P s (P.Nx - 2) v (i - 1) j (by omega) (by omega) (by omega) h3 (by omega)]
    have he' : sweepJ P s i (j - 1) (sweepI P s (i - 1) v) (IDX P.Nx i (j - 1)) =
        timeAdvance P s v (IDX P.Nx i (j - 1)) := by
      unfold timeAdvance
      by_cases hj1 : j = 1
      · subst hj1
        show sweepJ P s i 0 (sweepI P s (i - 1) v) (IDX P.Nx i 0) = _
        show sweepI P s (i - 1) v (IDX P.Nx i 0) = _
        rw [sweepI_frame P s (i - 1) v _
          (fun i' j' hi1 hi2 hj1 hj2 => by
            rw [Ne, IDX_inj P.Nx i i' 0 j' hiN (by omega)]; omega)]
        rw [sweepI_frame P s (P.Nx - 2) v _
          (fun i' j' hi1 hi2 hj1 hj2 => by
            rw [Ne, IDX_inj P.Nx i i' 0 j' hiN (by omega)]; omega)]
      · rw [sweepJ_value P s i (j - 1) (sweepI P s (i - 1) v) (j - 1) (by omega) le_rfl hNx]
        rw [sweepI_value P s (P.Nx - 2) v i (j - 1) h1 (by omega) (by omega) (by omega) (by omega)]
        rw [sweepJ_value P s i (P.Ny - 2) (sweepI P s (i - 1) v) (j - 1) (by omega) (by omega) hNx]
    rw [hA, hB]
    exact advRhsMixed_congr P s _ v _ (timeAdvance P s v) i j ha hb hc hd he'
  · intro i j hi hj hni
    exact sweepI_frame P s (P.Nx - 2) v _
      (fun i' j' hi1 hi2 hj1 hj2 => by
        rw [Ne, IDX_inj P.Nx i i' j j' hi (by omega)]; omega)

attribute [local semireducible] Rat.add Rat.mul Rat.inv Rat.sub in
/-- C4 (counterexample): `Nx = 4`, `Ny = 3`, `dx = dy = dt = ν = 1`,
`s ≡ 0`, pre-step `v` holding `1` at `(0,1)` and `0` elsewhere.  The
in-place loop writes `v[1,1] = 1` (diffusion from `(0,1)`) and then
computes `v[2,1]` from the *updated* `v[1,1]`, producing `1`; the
two-buffer update that reads only the pre-step `v` produces `0` there. -/
theorem timeAdvance_not_jacobi_cx :
    timeAdvance ⟨4, 3, 1, 1, 1, 1, 1⟩ (fun _ => 0) (fun k => if k = 4 then 1 else 0) (IDX 4 2 1) = 1
    ∧ timeAdvanceJacobi ⟨4, 3, 1, 1, 1, 1, 1⟩ (fun _ => 0) (fun k => if k = 4 then 1 else 0) (IDX 4 2 1) = 0
    ∧ (1 : ℚ) ≠ 0 := by
  refine ⟨?_, ?_, by norm_num⟩
  · decide
  · decide


/-- Witness for C4 (amended): the characterization applied to the
counterexample grid at the interior cell `(1,1)` and the corner `(0,0)`. -/
theorem timeAdvance_gauss_seidel_witness :
    timeAdvance ⟨4, 3, 1, 1, 1, 1, 1⟩ (fun _ => 0) (fun k => if k = 4 then 1 else 0) (IDX 4 1 1)
      = advRhsMixed ⟨4, 3, 1, 1, 1, 1, 1⟩ (fun _ => 0) (fun k => if k = 4 then 1 else 0)
          (timeAdvance ⟨4, 3, 1, 1, 1, 1, 1⟩ (fun _ => 0) (fun k => if k = 4 then 1 else 0)) 1 1
    ∧ timeAdvance ⟨4, 3, 1, 1, 1, 1, 1⟩ (fun _ => 0) (fun k => if k = 4 then 1 else 0) (IDX 4 0 0)
      = (fun k => if k = 4 then (1 : ℚ) else 0) (IDX 4 0 0) := by
  constructor
  · exact (timeAdvance_gauss_seidel ⟨4, 3, 1, 1, 1, 1, 1⟩ (fun _ => 0)
      (fun k => if k = 4 then 1 else 0)).1 1 1 (by norm_num) (by norm_num)
      (by norm_num) (by norm_num)
  · exact (timeAdvance_gauss_seidel ⟨4, 3, 1, 1, 1, 1, 1⟩ (fun _ => 0)
      (fun k => if k = 4 then 1 else 0)).2 0 0 (by norm_num) (by norm_num) (by omega)

/-! ## Claim C2 -/

/-- The external environment of a single-process run: no halo neighbours
contribute data and every `MPI_Allreduce` adds zero. -/
def serialEnv : ℕ → CGEnv :=
  fun _ => ⟨fun _ => 0, fun _ => 0, fun _ => 0, fun _ => 0, 0, 0, 0, 0, 0⟩

/-- C3 (amended): if the globally reduced `Σ‖b‖²` is below `(tol²)²`,
`Solve` zeroes every local entry of `x` and returns without any CG
iteration; in particular, for a local slice of fewer than `10⁴` points
whose entries are all `10⁻⁸` in a single-process run (zero external
reduction contribution), every returned entry of `x` is exactly `0`,
hence below `10⁻²⁰`.  (The bound on the slice size is necessary: see the
counterexample.) -/
theorem solve_early_exit_zero (P : CGParams) (env : ℕ → CGEnv) (st : CGState) :
    ((nrm2sq (P.Nx * P.Ny) st.b + (env 0).extEps < tol ^ 4 →
      (solve P env st).1 = CGOutcome.earlyExit
      ∧ ∀ i, i < P.Nx * P.Ny → (solve P env st).2.x i = 0))
    ∧ ((∀ i, i < P.Nx * P.Ny → st.b i = 1 / 10 ^ 8) → (env 0).extEps = 0 →
        P.Nx * P.Ny < 10 ^ 4 →
        ∀ i, i < P.Nx * P.Ny →
          (solve P env st).2.x i = 0 ∧ (solve P env st).2.x i < 1 / 10 ^ 20) := by
  have hmain : nrm2sq (P.Nx * P.Ny) st.b + (env 0).extEps < tol ^ 4 →
      (solve P env st).1 = CGOutcome.earlyExit
      ∧ ∀ i, i < P.Nx * P.Ny → (solve P env st).2.x i = 0 := by
    intro h
    have hs : solve P env st =
        (CGOutcome.earlyExit,
          ⟨st.b, fillZeroN (P.Nx * P.Ny) st.x, st.r, st.p, st.z, st.t⟩) := by
      simp only [solve]
      rw [if_pos h]
    rw [hs]
    exact ⟨rfl, fun i hi => by simp [fillZeroN, hi]⟩
  refine ⟨hmain, ?_⟩
  intro hb hext hn i hi
  have hS : nrm2sq (P.Nx * P.Ny) st.b = (P.Nx * P.Ny : ℕ) * (1 / 10 ^ 16) :=
    nrm2sq_const _ _ _ (fun k hk => by rw [hb k hk]; norm_num)
  have hcond : nrm2sq (P.Nx * P.Ny) st.b + (env 0).extEps < tol ^ 4 := by
    rw [hS, hext, add_zero]
    have hcast : ((P.Nx * P.Ny : ℕ) : ℚ) < 10 ^ 4 := by exact_mod_cast hn
    have : ((P.Nx * P.Ny : ℕ) : ℚ) * (1 / 10 ^ 16) < 10 ^ 4 * (1 / 10 ^ 16) := by
      apply mul_lt_mul_of_pos_right hcast
      norm_num
    calc ((P.Nx * P.Ny : ℕ) : ℚ) * (1 / 10 ^ 16) < 10 ^ 4 * (1 / 10 ^ 16) := this
      _ = tol ^ 4 := by norm_num [tol]
  have hz := (hmain hcond).2 i hi
  exact ⟨hz, by rw [hz]; norm_num⟩

/-- Witness for C3 (amended): a `2 × 2` single-process slice with every
entry of `b` equal to `10⁻⁸` takes the early exit and returns `x = 0`. -/
theorem solve_early_exit_zero_witness :
    (solve ⟨2, 2, 1, 1, false, false, false, false⟩ serialEnv
      ⟨fun _ => 1 / 10 ^ 8, fun _ => 3, fun _ => 0, fun _ => 0, fun _ => 0, fun _ => 0⟩).2.x 0
      = 0 :=
  ((solve_early_exit_zero ⟨2, 2, 1, 1, false, false, false, false⟩ serialEnv
    ⟨fun _ => 1 / 10 ^ 8, fun _ => 3, fun _ => 0, fun _ => 0, fun _ => 0, fun _ => 0⟩).2
    (fun _ _ => rfl) rfl (by norm_num) 0 (by norm_num)).1

/-- The degenerate single-process local slice used by the C3
counterexample: a `10001 × 1` row.  All four neighbours are the
sentinel, so `ImposeBC` zeroes the entire (one-row) local domain and
`ApplyOperator` computes nothing at all. -/
def bigP : CGParams := ⟨10001, 1, 1, 1, false, false, false, false⟩

/-- Input of the C3 counterexample: every entry of `b` is `10⁻⁸`, the
caller's `x` buffer is zeroed, and the uninitialised scratch buffer `t`
happens to hold `1.0` in every entry (its contents are unspecified:
`SolverCG`'s constructor allocates it with `new double[n]`). -/
def bigSt : CGState :=
  ⟨fun _ => 1 / 10 ^ 8, fun _ => 0, fun _ => 0, fun _ => 0, fun _ => 0, fun _ => 1⟩

/-- On the degenerate `10001 × 1` all-sentinel slice, `ApplyOperator`
writes nothing: the interior is empty and every corner/edge write is
guarded by a real-neighbour test. -/
theorem c3_applyOp_id (E : CGEnv) (inp out : ℕ → ℚ) :
    applyOperator bigP E inp out = out := by
  funext idx
  simp [applyOperator, applyEdges, applyCorners, applyInterior,
    CGParams.boundaryDomain, bigP]

/-- On the `10001 × 1` all-sentinel slice, `ImposeBC` zeroes the whole
local domain (the single row is both the global top and bottom row). -/
theorem c3_imposeBC (f : ℕ → ℚ) (idx : ℕ) :
    imposeBC bigP f idx = if idx < 10001 then 0 else f idx := by
  simp [imposeBC, bigP]
  split_ifs <;> first | rfl | omega

/-- On the `10001 × 1` all-sentinel slice, `Precondition` copies every
entry (every point lies on the global boundary). -/
theorem c3_precondition (f g : ℕ → ℚ) (idx : ℕ) :
    precondition bigP f g idx = if idx < 10001 then f idx else g idx := by
  simp [precondition, precondCorners, precondTopRow, precondBottomRow,
    precondRightCol, precondLeftCol, precondInterior, Function.update_apply,
    IDX, bigP]
  split_ifs <;> first | rfl | omega | simp_all

theorem c3_init_t : (solveInit bigP serialEnv bigSt).t = bigSt.t :=
  c3_applyOp_id (serialEnv 0) bigSt.x bigSt.t

theorem c3_init_r (idx : ℕ) :
    (solveInit bigP serialEnv bigSt).r idx = if idx < 10001 then -1 else 0 := by
  show axpyN (bigP.Nx * bigP.Ny) (-1)
      (applyOperator bigP (serialEnv 0) bigSt.x bigSt.t)
      (imposeBC bigP (copyN (bigP.Nx * bigP.Ny) bigSt.b bigSt.r)) idx = _
  rw [show bigP.Nx * bigP.Ny = 10001 from rfl, c3_applyOp_id]
  simp only [axpyN]
  rw [c3_imposeBC]
  by_cases h : idx < 10001 <;> simp only [h, if_true, if_false]
  · show (0 : ℚ) + (-1) * bigSt.t idx = -1
    show (0 : ℚ) + (-1) * 1 = -1
    norm_num
  · show copyN 10001 bigSt.b bigSt.r idx = 0
    simp only [copyN]
    rw [if_neg h]
    rfl

theorem c3_init_z (idx : ℕ) :
    (solveInit bigP serialEnv bigSt).z idx = if idx < 10001 then -1 else 0 := by
  show precondition bigP ((solveInit bigP serialEnv bigSt).r) bigSt.z idx = _
  rw [c3_precondition]
  by_cases h : idx < 10001
  · rw [if_pos h, if_pos h, c3_init_r idx, if_pos h]
  · rw [if_neg h, if_neg h]
    rfl

theorem c3_init_p (idx : ℕ) :
    (solveInit bigP serialEnv bigSt).p idx = if idx < 10001 then -1 else 0 := by
  show copyN (bigP.Nx * bigP.Ny) ((solveInit bigP serialEnv bigSt).z) bigSt.p idx = _
  rw [show bigP.Nx * bigP.Ny = 10001 from rfl]
  simp only [copyN]
  by_cases h : idx < 10001
  · rw [if_pos h, c3_init_z idx, if_pos h]
  · rw [if_neg h, if_neg h]
    rfl

/-- C3 (counterexample): the "any local slice" clause fails for slices of
`10⁴` or more points.  On the single-process `10001 × 1` slice with every
entry of `b` equal to `10⁻⁸` (global `Σ‖b‖² = 10001·10⁻¹⁶ ≥ 10⁻¹² =
(tol²)²`), the early exit is *not* taken; the CG path then depends on the
uninitialised scratch buffer `t`, and with residue `t ≡ 1` the solver
"converges" after one iteration returning `x ≡ 1`, which is not below
`10⁻²⁰`.  (The model's trace matches the IEEE execution exactly: all
quantities involved are small integers or exact sums.) -/
theorem solve_large_slice_cx :
    (solve bigP serialEnv bigSt).1 = CGOutcome.converged 1
    ∧ (solve bigP serialEnv bigSt).2.x 0 = 1
    ∧ ¬((solve bigP serialEnv bigSt).2.x 0 < 1 / 10 ^ 20) := by
  have hnum : nrm2sq (bigP.Nx * bigP.Ny) bigSt.b = (10001 : ℚ) * (1 / 10 ^ 16) := by
    rw [show bigP.Nx * bigP.Ny = 10001 from rfl]
    rw [nrm2sq_const 10001 _ (1 / 10 ^ 16) (fun i _ => by norm_num [bigSt])]
    norm_num
  have hne : ¬(nrm2sq (bigP.Nx * bigP.Ny) bigSt.b + (serialEnv 0).extEps < tol ^ 4) := by
    rw [hnum]
    norm_num [serialEnv, tol]
  have hsolve : solve bigP serialEnv bigSt =
      solveLoop bigP serialEnv 5000 1 (solveInit bigP serialEnv bigSt) := by
    simp only [solve]
    rw [if_neg hne]
  have hdotTP : dotN 10001 (solveInit bigP serialEnv bigSt).t
      (solveInit bigP serialEnv bigSt).p = (10001 : ℚ) * (-1) :=
    dotN_const 10001 _ _ (-1) (fun i hi => by
      rw [show (solveInit bigP serialEnv bigSt).t i = 1 from congrFun c3_init_t i,
        c3_init_p i]
      simp [hi])
  have hdotRZ : dotN 10001 (solveInit bigP serialEnv bigSt).r
      (solveInit bigP serialEnv bigSt).z = (10001 : ℚ) * 1 :=
    dotN_const 10001 _ _ 1 (fun i hi => by
      rw [c3_init_r i, c3_init_z i]
      simp [hi])
  have hcore1 : (cgIterCore bigP (serialEnv 1) (solveInit bigP serialEnv bigSt)).2.1 = 0 := by
    simp only [cgIterCore]
    rw [show bigP.Nx * bigP.Ny = 10001 from rfl]
    rw [c3_applyOp_id, hdotTP, hdotRZ]
    rw [show ((serialEnv 1).extAlphaDen : ℚ) = 0 from rfl,
      show ((serialEnv 1).extAlphaNum : ℚ) = 0 from rfl,
      show ((serialEnv 1).extEps : ℚ) = 0 from rfl]
    rw [show ((10001 : ℚ) * 1 + 0) / ((10001 : ℚ) * (-1) + 0) = -1 by norm_num]
    rw [nrm2sq_const 10001 _ 0 (fun i hi => by
      rw [show axpyN 10001 (-(-1))
          (solveInit bigP serialEnv bigSt).t (solveInit bigP serialEnv bigSt).r i =
          (solveInit bigP serialEnv bigSt).r i + 1 * (solveInit bigP serialEnv bigSt).t i
        from by simp [axpyN, hi]]
      rw [c3_init_r i, congrFun c3_init_t i]
      simp [hi, bigSt])]
    norm_num
  have hconv : (cgIterCore bigP (serialEnv 1) (solveInit bigP serialEnv bigSt)).2.1 < tol ^ 4 := by
    rw [hcore1]
    norm_num [tol]
  have hloop := solveLoop_first_conv bigP serialEnv (solveInit bigP serialEnv bigSt) hconv
  have hx0 : (cgIterCore bigP (serialEnv 1) (solveInit bigP serialEnv bigSt)).1.x 0 = 1 := by
    simp only [cgIterCore]
    rw [show bigP.Nx * bigP.Ny = 10001 from rfl]
    rw [c3_applyOp_id, hdotTP, hdotRZ]
    rw [show ((serialEnv 1).extAlphaDen : ℚ) = 0 from rfl,
      show ((serialEnv 1).extAlphaNum : ℚ) = 0 from rfl]
    rw [show ((10001 : ℚ) * 1 + 0) / ((10001 : ℚ) * (-1) + 0) = -1 by norm_num]
    rw [show axpyN 10001 (-1) (solveInit bigP serialEnv bigSt).p
        (solveInit bigP serialEnv bigSt).x 0 =
        (solveInit bigP serialEnv bigSt).x 0 + (-1) * (solveInit bigP serialEnv bigSt).p 0
      from by simp [axpyN]]
    rw [c3_init_p 0]
    show bigSt.x 0 + (-1) * (if (0 : ℕ) < 10001 then (-1 : ℚ) else 0) = 1
    norm_num [bigSt]
  refine ⟨?_, ?_, ?_⟩
  · rw [hsolve, hloop]
  · rw [hsolve, hloop, hx0]
  · rw [hsolve, hloop, hx0]
    norm_num

/-! ## Claim C1 -/

theorem IDX_lt (Nx Ny i j : ℕ) (hi : i < Nx) (hj : j < Ny) :
    IDX Nx i j < Nx * Ny := by
  unfold IDX
  calc j * Nx + i < j * Nx + Nx := by omega
    _ = (j + 1) * Nx := by ring
    _ ≤ Ny * Nx := Nat.mul_le_mul_right Nx (by omega)
    _ = Nx * Ny := Nat.mul_comm Ny Nx

theorem ite_update_skip {c : Prop} [Decidable c] (f : ℕ → ℚ) (t : ℕ) (v : ℚ) (idx : ℕ)
    (h : c → idx ≠ t) : (if c then Function.update f t v else f) idx = f idx := by
  by_cases hc : c
  · rw [if_pos hc]
    exact Function.update_noteq (h hc) v f
  · rw [if_neg hc]

theorem applyInterior_skip (P : CGParams) (inp out : ℕ → ℚ) (i j : ℕ) (hi : i < P.Nx)
    (h : ¬(1 ≤ i ∧ i + 1 < P.Nx ∧ 1 ≤ j ∧ j + 1 < P.Ny)) :
    applyInterior P inp out (IDX P.Nx i j) = out (IDX P.Nx i j) := by
  simp only [applyInterior, IDX_mod P.Nx i j hi, IDX_div P.Nx i j hi]
  rw [if_neg h]

theorem applyEdges_skip (P : CGParams) (E : CGEnv) (inp out : ℕ → ℚ) (i j : ℕ)
    (hi : i < P.Nx)
    (g1 : ¬(P.Nx = 1 ∧ 1 < P.Ny ∧ P.hasLeft = true ∧ P.hasRight = true
      ∧ 1 ≤ j ∧ j + 1 < P.Ny))
    (g2 : ¬(P.Nx ≠ 1 ∧ P.Ny = 1 ∧ P.hasTop = true ∧ P.hasBottom = true
      ∧ j = 0 ∧ 1 ≤ i ∧ i + 1 < P.Nx))
    (g3 : ¬(P.Nx ≠ 1 ∧ P.Ny ≠ 1 ∧ P.hasBottom = true ∧ j = 0 ∧ 1 ≤ i ∧ i + 1 < P.Nx))
    (g4 : ¬(P.Nx ≠ 1 ∧ P.Ny ≠ 1 ∧ P.hasTop = true ∧ j = P.Ny - 1 ∧ 1 ≤ i ∧ i + 1 < P.Nx))
    (g5 : ¬(P.Nx ≠ 1 ∧ P.Ny ≠ 1 ∧ P.hasLeft = true ∧ i = 0 ∧ 1 ≤ j ∧ j + 1 < P.Ny))
    (g6 : ¬(P.Nx ≠ 1 ∧ P.Ny ≠ 1 ∧ P.hasRight = true ∧ i = P.Nx - 1 ∧ 1 ≤ j ∧ j + 1 < P.Ny)) :
    applyEdges P E inp out (IDX P.Nx i j) = out (IDX P.Nx i j) := by
  simp only [applyEdges, IDX_mod P.Nx i j hi, IDX_div P.Nx i j hi]
  rw [if_neg g1, if_neg g2, if_neg g3, if_neg g4, if_neg g5, if_neg g6]

theorem applyCorners_skip (P : CGParams) (E : CGEnv) (inp out : ℕ → ℚ) (i j : ℕ)
    (hi : i < P.Nx) (h2x : 2 ≤ P.Nx) (h2y : 2 ≤ P.Ny)
    (hc1 : ¬(¬P.hasBottom = true ∨ ¬P.hasLeft = true) → ¬(i = 0 ∧ j = 0))
    (hc2 : ¬(¬P.hasBottom = true ∨ ¬P.hasRight = true) → ¬(i = P.Nx - 1 ∧ j = 0))
    (hc3 : ¬(¬P.hasTop = true ∨ ¬P.hasLeft = true) → ¬(i = 0 ∧ j = P.Ny - 1))
    (hc4 : ¬(¬P.hasTop = true ∨ ¬P.hasRight = true) → ¬(i = P.Nx - 1 ∧ j = P.Ny - 1)) :
    applyCorners P E inp out (IDX P.Nx i j) = out (IDX P.Nx i j) := by
  simp only [applyCorners]
  rw [if_neg (by rintro ⟨h, -⟩; omega :
    ¬(P.Nx = 1 ∧ P.Ny = 1 ∧ ¬P.boundaryDomain = true))]
  rw [if_neg (by rintro ⟨h, -⟩; omega :
    ¬(P.Nx = 1 ∧ P.Ny ≠ 1 ∧ ¬(¬P.hasLeft = true ∨ ¬P.hasRight = true)))]
  rw [if_neg (by rintro ⟨-, h, -⟩; omega :
    ¬(P.Nx ≠ 1 ∧ P.Ny = 1 ∧ ¬(¬P.hasTop = true ∨ ¬P.hasBottom = true)))]
  rw [ite_update_skip _ _ _ _ (fun g => by
    rw [Ne, IDX_inj P.Nx i (P.Nx - 1) j (P.Ny - 1) hi (by omega)]; exact hc4 g)]
  rw [ite_update_skip _ _ _ _ (fun g => by
    rw [Ne, IDX_inj P.Nx i 0 j (P.Ny - 1) hi (by omega)]; exact hc3 g)]
  rw [ite_update_skip _ _ _ _ (fun g => by
    rw [Ne, IDX_inj P.Nx i (P.Nx - 1) j 0 hi (by omega)]; exact hc2 g)]
  rw [ite_update_skip _ _ _ _ (fun g => by
    rw [Ne, IDX_inj P.Nx i 0 j 0 hi (by omega)]; exact hc1 g)]

/-- `ApplyOperator` never writes a local entry that lies on a global
boundary (non-degenerate shapes `nx, ny ≥ 2`). -/
theorem applyOperator_skip_boundary (P : CGParams) (E : CGEnv) (inp out : ℕ → ℚ)
    (i j : ℕ) (hi : i < P.Nx) (hj : j < P.Ny) (h2x : 2 ≤ P.Nx) (h2y : 2 ≤ P.Ny)
    (hgb : isGlobalBoundary P i j) :
    applyOperator P E inp out (IDX P.Nx i j) = out (IDX P.Nx i j) := by
  show applyEdges P E inp (applyCorners P E inp (applyInterior P inp out)) (IDX P.Nx i j)
    = out (IDX P.Nx i j)
  rcases hgb with ⟨hb, hix⟩ | ⟨hb, hix⟩ | ⟨hb, hix⟩ | ⟨hb, hix⟩ <;> subst hix
  · -- left sentinel: i = 0
    rw [applyEdges_skip P E inp _ 0 j hi (by rintro ⟨h, -⟩; omega)
      (by rintro ⟨-, h, -⟩; omega)
      (by rintro ⟨-, -, -, -, h, -⟩; omega)
      (by rintro ⟨-, -, -, -, h, -⟩; omega)
      (by rintro ⟨-, -, h, -⟩; rw [hb] at h; exact Bool.noConfusion h)
      (by rintro ⟨-, -, -, h, -⟩; omega)]
    rw [applyCorners_skip P E inp _ 0 j hi h2x h2y
      (fun g => absurd (Or.inr (by simp [hb])) g)
      (fun _ => by rintro ⟨h, -⟩; omega)
      (fun g => absurd (Or.inr (by simp [hb])) g)
      (fun _ => by rintro ⟨h, -⟩; omega)]
    exact applyInterior_skip P inp out 0 j hi (by omega)
  · -- right sentinel: i = Nx - 1
    rw [applyEdges_skip P E inp _ (P.Nx - 1) j hi (by rintro ⟨h, -⟩; omega)
      (by rintro ⟨-, h, -⟩; omega)
      (by rintro ⟨-, -, -, -, -, h⟩; omega)
      (by rintro ⟨-, -, -, -, -, h⟩; omega)
      (by rintro ⟨-, -, -, h, -⟩; omega)
      (by rintro ⟨-, -, h, -⟩; rw [hb] at h; exact Bool.noConfusion h)]
    rw [applyCorners_skip P E inp _ (P.Nx - 1) j hi h2x h2y
      (fun _ => by rintro ⟨h, -⟩; omega)
      (fun g => absurd (Or.inr (by simp [hb])) g)
      (fun _ => by rintro ⟨h, -⟩; omega)
      (fun g => absurd (Or.inr (by simp [hb])) g)]
    exact applyInterior_skip P inp out (P.Nx - 1) j hi (by omega)
  · -- bottom sentinel: j = 0
    rw [applyEdges_skip P E inp _ i 0 hi (by rintro ⟨h, -⟩; omega)
      (by rintro ⟨-, -, -, h, -⟩; rw [hb] at h; exact Bool.noConfusion h)
      (by rintro ⟨-, -, h, -⟩; rw [hb] at h; exact Bool.noConfusion h)
      (by rintro ⟨-, -, -, h, -⟩; omega)
      (by rintro ⟨-, -, -, -, h, -⟩; omega)
      (by rintro ⟨-, -, -, -, h, -⟩; omega)]
    rw [applyCorners_skip P E inp _ i 0 hi h2x h2y
      (fun g => absurd (Or.inl (by simp [hb])) g)
      (fun g => absurd (Or.inl (by simp [hb])) g)
      (fun _ => by rintro ⟨-, h⟩; omega)
      (fun _ => by rintro ⟨-, h⟩; omega)]
    exact applyInterior_skip P inp out i 0 hi (by omega)
  · -- top sentinel: j = Ny - 1
    rw [applyEdges_skip P E inp _ i (P.Ny - 1) hi (by rintro ⟨h, -⟩; omega)
      (by rintro ⟨-, h, -⟩; omega)
      (by rintro ⟨-, -, -, h, -⟩; omega)
      (by rintro ⟨-, -, h, -⟩; rw [hb] at h; exact Bool.noConfusion h)
      (by rintro ⟨-, -, -, -, -, h⟩; omega)
      (by rintro ⟨-, -, -, -, -, h⟩; omega)]
    rw [applyCorners_skip P E inp _ i (P.Ny - 1) hi h2x h2y
      (fun _ => by rintro ⟨-, h⟩; omega)
      (fun _ => by rintro ⟨-, h⟩; omega)
      (fun g => absurd (Or.inl (by simp [hb])) g)
      (fun g => absurd (Or.inl (by simp [hb])) g)]
    exact applyInterior_skip P inp out i (P.Ny - 1) hi (by omega)

/-- `f` vanishes at every local entry whose global index lies on the
global domain boundary (an edge whose neighbour is `MPI_PROC_NULL`). -/
def ZeroOnBoundary (P : CGParams) (f : ℕ → ℚ) : Prop :=
  ∀ i j, i < P.Nx → j < P.Ny → isGlobalBoundary P i j → f (IDX P.Nx i j) = 0

theorem zob_axpy (P : CGParams) (a : ℚ) (x y : ℕ → ℚ)
    (hx : ZeroOnBoundary P x) (hy : ZeroOnBoundary P y) :
    ZeroOnBoundary P (axpyN (P.Nx * P.Ny) a x y) := by
  intro i j hi hj hb
  unfold axpyN
  rw [if_pos (IDX_lt P.Nx P.Ny i j hi hj), hx i j hi hj hb, hy i j hi hj hb]
  ring

theorem zob_copy (P : CGParams) (x y : ℕ → ℚ) (hx : ZeroOnBoundary P x) :
    ZeroOnBoundary P (copyN (P.Nx * P.Ny) x y) := by
  intro i j hi hj hb
  unfold copyN
  rw [if_pos (IDX_lt P.Nx P.Ny i j hi hj)]
  exact hx i j hi hj hb

theorem zob_fillZero (P : CGParams) (x : ℕ → ℚ) :
    ZeroOnBoundary P (fillZeroN (P.Nx * P.Ny) x) := by
  intro i j hi hj hb
  unfold fillZeroN
  rw [if_pos (IDX_lt P.Nx P.Ny i j hi hj)]

theorem zob_imposeBC (P : CGParams) (f : ℕ → ℚ) :
    ZeroOnBoundary P (imposeBC P f) := by
  intro i j hi hj hb
  have hcond : (¬P.hasBottom = true ∧ j = 0 ∧ i < P.Nx)
      ∨ (¬P.hasTop = true ∧ j = P.Ny - 1 ∧ i < P.Nx)
      ∨ (¬P.hasLeft = true ∧ i = 0 ∧ j < P.Ny)
      ∨ (¬P.hasRight = true ∧ i = P.Nx - 1 ∧ j < P.Ny) := by
    rcases hb with ⟨h, hix⟩ | ⟨h, hix⟩ | ⟨h, hix⟩ | ⟨h, hix⟩
    · exact Or.inr (Or.inr (Or.inl ⟨by simp [h], hix, hj⟩))
    · exact Or.inr (Or.inr (Or.inr ⟨by simp [h], hix, hj⟩))
    · exact Or.inl ⟨by simp [h], hix, hi⟩
    · exact Or.inr (Or.inl ⟨by simp [h], hix, hi⟩)
  simp only [imposeBC, IDX_mod P.Nx i j hi, IDX_div P.Nx i j hi]
  rw [if_pos hcond]

theorem zob_applyOperator (P : CGParams) (E : CGEnv) (inp out : ℕ → ℚ)
    (h2x : 2 ≤ P.Nx) (h2y : 2 ≤ P.Ny) (hout : ZeroOnBoundary P out) :
    ZeroOnBoundary P (applyOperator P E inp out) := by
  intro i j hi hj hb
  rw [applyOperator_skip_boundary P E inp out i j hi hj h2x h2y hb]
  exact hout i j hi hj hb

theorem zob_precondition (P : CGParams) (inp out : ℕ → ℚ)
    (h2x : 2 ≤ P.Nx) (h2y : 2 ≤ P.Ny) (hinp : ZeroOnBoundary P inp) :
    ZeroOnBoundary P (precondition P inp out) := by
  intro i j hi hj hb
  rw [precondition_eval P inp out h2x h2y i j hi hj, if_pos hb]
  exact hinp i j hi hj hb

/-- All five working vectors of a CG state vanish on the global
boundary. -/
def CGStateZB (P : CGParams) (st : CGState) : Prop :=
  ZeroOnBoundary P st.x ∧ ZeroOnBoundary P st.r ∧ ZeroOnBoundary P st.p
    ∧ ZeroOnBoundary P st.z ∧ ZeroOnBoundary P st.t

theorem zob_solveInit (P : CGParams) (env : ℕ → CGEnv) (st : CGState)
    (h2x : 2 ≤ P.Nx) (h2y : 2 ≤ P.Ny)
    (hx : ZeroOnBoundary P st.x) (ht : ZeroOnBoundary P st.t) :
    CGStateZB P (solveInit P env st) := by
  have ht1 := zob_applyOperator P (env 0) st.x st.t h2x h2y ht
  have hr3 := zob_axpy P (-1) _ _ ht1
    (zob_imposeBC P (copyN (P.Nx * P.Ny) st.b st.r))
  have hz1 := zob_precondition P _ st.z h2x h2y hr3
  exact ⟨hx, hr3, zob_copy P _ st.p hz1, hz1, ht1⟩

theorem zob_iterCore (P : CGParams) (E : CGEnv) (st : CGState)
    (h2x : 2 ≤ P.Nx) (h2y : 2 ≤ P.Ny) (h : CGStateZB P st) :
    CGStateZB P (cgIterCore P E st).1 := by
  obtain ⟨hx, hr, hp, hz, ht⟩ := h
  have ht1 := zob_applyOperator P E st.p st.t h2x h2y ht
  exact ⟨zob_axpy P _ _ _ hp hx, zob_axpy P _ _ _ ht1 hr, hp, hz, ht1⟩

theorem zob_iterTail (P : CGParams) (E : CGEnv) (st : CGState) (bd : ℚ)
    (h2x : 2 ≤ P.Nx) (h2y : 2 ≤ P.Ny) (h : CGStateZB P st) :
    CGStateZB P (cgIterTail P E st bd) := by
  obtain ⟨hx, hr, hp, hz, ht⟩ := h
  have hz1 := zob_precondition P st.r st.z h2x h2y hr
  have ht2 := zob_copy P _ st.t hz1
  have ht3 := zob_axpy P
    ((dotN (P.Nx * P.Ny) st.r (precondition P st.r st.z) + E.extBetaNum) / bd)
    st.p _ hp ht2
  exact ⟨hx, hr, zob_copy P _ st.p ht3, hz1, ht3⟩

theorem zob_solveLoop (P : CGParams) (env : ℕ → CGEnv)
    (h2x : 2 ≤ P.Nx) (h2y : 2 ≤ P.Ny) :
    ∀ fuel k st, CGStateZB P st → CGStateZB P (solveLoop P env fuel k st).2 := by
  intro fuel
  induction fuel with
  | zero => intro k st h; exact h
  | succ f ih =>
    intro k st h
    simp only [solveLoop]
    by_cases hc : (cgIterCore P (env k) st).2.1 < tol ^ 4
    · rw [if_pos hc]
      exact zob_iterCore P (env k) st h2x h2y h
    · rw [if_neg hc]
      by_cases hk : k < 5000
      · rw [if_pos hk]
        exact ih (k + 1) _ (zob_iterTail P (env k) _ _ h2x h2y
          (zob_iterCore P (env k) st h2x h2y h))
      · rw [if_neg hk]
        exact zob_iterTail P (env k) _ _ h2x h2y
          (zob_iterCore P (env k) st h2x h2y h)

/-- C1 (amended): provided the local shape is non-degenerate
(`nx, ny ≥ 2`) and both the incoming guess `x` and the scratch vector `t`
already vanish on the global boundary, every entry of `x` returned by
`SolverCG::Solve` whose global index lies on the global domain boundary
is exactly `0`, on the early-exit path (which zeroes all of `x`) and
after any number of CG iterations alike.  The hypotheses on the incoming
`x` and `t` are necessary: `Solve` never re-zeroes the boundary of `x`
(see the counterexample), and the stale boundary of `t` is folded into
`r` by `r ← r - t`. -/
theorem solve_sentinel_zero (P : CGParams) (env : ℕ → CGEnv) (st : CGState)
    (h2x : 2 ≤ P.Nx) (h2y : 2 ≤ P.Ny)
    (hx : ZeroOnBoundary P st.x) (ht : ZeroOnBoundary P st.t) :
    ZeroOnBoundary P (solve P env st).2.x := by
  simp only [solve]
  by_cases h0 : nrm2sq (P.Nx * P.Ny) st.b + (env 0).extEps < tol ^ 4
  · rw [if_pos h0]
    exact zob_fillZero P st.x
  · rw [if_neg h0]
    exact (zob_solveLoop P env h2x h2y 5000 1 _
      (zob_solveInit P env st h2x h2y hx ht)).1

/-- Witness for C1 (amended): serial `3 × 3` grid, `b` a unit impulse at
the centre, zero initial guess and zero scratch; after `Solve` the
corner `(0,0)` of `x` is exactly `0`. -/
theorem solve_sentinel_zero_witness :
    (2 : ℕ) ≤ 3 ∧
    (solve ⟨3, 3, 1, 1, false, false, false, false⟩ serialEnv
      ⟨fun idx => if idx = 4 then 1 else 0, fun _ => 0, fun _ => 0,
        fun _ => 0, fun _ => 0, fun _ => 0⟩).2.x (IDX 3 0 0) = 0 :=
  ⟨by norm_num,
    solve_sentinel_zero ⟨3, 3, 1, 1, false, false, false, false⟩ serialEnv
      ⟨fun idx => if idx = 4 then 1 else 0, fun _ => 0, fun _ => 0,
        fun _ => 0, fun _ => 0, fun _ => 0⟩
      (by norm_num) (by norm_num) (fun _ _ _ _ _ => rfl) (fun _ _ _ _ _ => rfl)
      0 0 (by norm_num) (by norm_num) (Or.inl ⟨rfl, rfl⟩)⟩

attribute [local semireducible] Rat.add Rat.mul Rat.inv Rat.sub in
/-- C1 (counterexample): serial `3 × 3` grid, `b` a unit impulse at the
centre, initial guess `x` holding `1` at the global-boundary corner
`(0,0)`.  `Solve` returns normally (converged in one iteration), yet the
returned `x` still holds `1 ≠ 0` at the corner: the solver never imposes
the boundary condition on `x` itself. -/
theorem solve_boundary_cx :
    (solve ⟨3, 3, 1, 1, false, false, false, false⟩ serialEnv
        ⟨fun idx => if idx = 4 then 1 else 0, fun idx => if idx = 0 then 1 else 0,
          fun _ => 0, fun _ => 0, fun _ => 0, fun _ => 0⟩).1
        = CGOutcome.converged 1
    ∧ (solve ⟨3, 3, 1, 1, false, false, false, false⟩ serialEnv
        ⟨fun idx => if idx = 4 then 1 else 0, fun idx => if idx = 0 then 1 else 0,
          fun _ => 0, fun _ => 0, fun _ => 0, fun _ => 0⟩).2.x (IDX 3 0 0) = 1
    ∧ isGlobalBoundary ⟨3, 3, 1, 1, false, false, false, false⟩ 0 0
    ∧ (1 : ℚ) ≠ 0 := by
  refine ⟨by decide, by decide, Or.inl ⟨rfl, rfl⟩, by norm_num⟩

